import Mathlib

/-!
Shallow embedding of the Game Boy emulator (prime-oda/gb_emulator) in Lean 4,
covering the parts of `src/gameboy/timer.py`, `src/gameboy/memory.py`,
`src/gameboy/cpu.py` and `src/gameboy/ppu.py` that the verified claims are
about.

Conventions of the embedding:
* Python's arbitrary-precision non-negative integers are modelled as `Nat`.
  All registers in the source are kept non-negative (they are masked with
  `& 0xFF` / `& 0xFFFF` on every write), so `Nat` is faithful.
* Python's `x & m`, `x | m`, `x ^ m`, `x >> k`, `x << k` on non-negative
  integers are `x &&& m`, `x ||| m`, `x ^^^ m`, `x >>> k`, `x <<< k` on `Nat`.
* Python's `x & ~y` for non-negative `x`, `y` clears the bits of `y` from
  `x`; on `Nat` this is `x ^^^ (x &&& y)` (see `pyAndNot`).
* Python's `(x - 1) & 0xFFFF` (two's-complement wrap of a register that is
  `< 0x10000`) is modelled as `(x + 0xFFFF) &&& 0xFFFF`.
* Byte arrays (`self.io`, `self.wram`, ...) are modelled as total functions
  `Nat → Nat`; the source only ever indexes them inside their bounds.
* Python code that can raise is modelled with `Except EmuError`.
  `Memory.read_byte` / `Memory.write_byte` call `self.timer.tick(...)` when
  both `self.timer` and `self.cpu` are attached (the emulator attaches both),
  but `class Timer` in `timer.py` defines no method `tick`, so that call
  raises `AttributeError`; the embedding returns `EmuError.attributeErrorTick`
  there.  Opcode `0xED` explicitly raises `NotImplementedError`.
* The configuration modelled has `memory.serial = None` and
  `memory.apu = None` (their `Memory.__init__` defaults): the branches of
  `read_byte`/`write_byte` guarded by `if self.serial:` / `and self.apu` then
  fall through to the `io` array exactly as in the source.  Whether
  `memory.timer` and `memory.cpu` are attached is kept as explicit state
  (`timerPresent`, `cpuPresent`) because the emulator attaches both.
* `print` calls and `if self.debug:` blocks only produce console output and
  are omitted; `self._text_writes` (incremented on some VRAM writes) is kept
  as the field `textWrites`.
-/

/-- Errors/events that can escape the embedded operations.
`attributeErrorTick` models the `AttributeError` raised by
`self.timer.tick(...)` in `Memory.read_byte`/`write_byte` (class `Timer`
defines no `tick` method).  `notImplementedOpcode` models the explicit
`raise NotImplementedError` for opcode `0xED` in `CPU.execute_instruction`.
`dictKeyError` models a `KeyError` on `self.frequencies[...]` (provably never
raised).  `unmodelledOpcode` is not a Python error: it marks the boundary of
the embedding, returned for opcodes of `execute_instruction` that the claims
do not exercise and that are therefore not translated here. -/
inductive EmuError where
  | attributeErrorTick : EmuError
  | notImplementedOpcode : EmuError
  | dictKeyError : EmuError
  | unmodelledOpcode : Nat → EmuError
deriving DecidableEq, Repr

/-- Point update of a byte array modelled as a function (`arr[i] = v`). -/
def setIdx (f : Nat → Nat) (i v : Nat) : Nat → Nat :=
  fun j => if j = i then v else f j

/-- Python's `x & ~y` on non-negative integers: clear the bits of `y`
from `x`.  A bit of the result is set iff it is set in `x` and not in `y`,
which on `Nat` is `x ^^^ (x &&& y)`. -/
def pyAndNot (x y : Nat) : Nat := x ^^^ (x &&& y)

/-- Internal state of `class Timer` (`timer.py`), fields of `__init__`.
The registers DIV/TIMA/TMA/TAC themselves live in `memory.io[0x04..0x07]`. -/
structure Timer where
  divCounter : Nat        -- self.div_counter
  timaCounter : Nat       -- self.tima_counter
  timaOverflowDelay : Nat -- self.tima_overflow_delay (never negative)
  memTimingCounter : Nat  -- self.mem_timing_counter
  memTimingEnabled : Bool -- self.mem_timing_enabled
deriving Repr

/-- `self.frequencies` dict of `Timer.__init__`: cycles per TIMA increment,
keyed by TAC bits 1..0.  A missing key is `none` (Python `KeyError`). -/
def Timer.frequencies : Nat → Option Nat
  | 0 => some 1024
  | 1 => some 16
  | 2 => some 64
  | 3 => some 256
  | _ => none

/-- State of `class Memory` (`memory.py`).  Byte arrays are indexed by their
offset, as the Python lists are.  `timerPresent`/`cpuPresent` model whether
the emulator has attached `memory.timer` / `memory.cpu` (see module comment;
`serial` and `apu` are `None` in the modelled configuration). -/
structure Memory where
  rom : Nat → Nat
  romLen : Nat            -- len(self.rom)
  bootRom : Nat → Nat
  bootRomEnabled : Bool
  vram : Nat → Nat
  eram : Nat → Nat
  wram : Nat → Nat
  oam : Nat → Nat
  io : Nat → Nat
  hram : Nat → Nat
  ie : Nat
  romBank : Nat
  ramBank : Nat
  bankingMode : Nat
  ramEnabled : Bool
  joypadButtons : Nat
  joypadDirections : Nat
  timerPresent : Bool
  cpuPresent : Bool
  timer : Timer
  textWrites : Nat        -- self._text_writes

/-- `Timer.read_register` (timer.py:39-50).  Pure: reads only
`self.div_counter` and `memory.io`. -/
def Timer.read_register (m : Memory) (address : Nat) : Nat :=
  if address = 0xFF04 then
    (m.timer.divCounter >>> 8) &&& 0xFF
  else if address = 0xFF05 then
    m.io 0x05
  else if address = 0xFF06 then
    m.io 0x06
  else if address = 0xFF07 then
    m.io 0x07
  else 0xFF

/-- `Timer.write_register` (timer.py:52-68).  Mutates only the timer's
counters and `memory.io`. -/
def Timer.write_register (m : Memory) (address value : Nat) : Memory :=
  let value := value &&& 0xFF
  if address = 0xFF04 then
    -- Writing any value to DIV resets it to 0 and resets internal counter
    { m with timer := { m.timer with divCounter := 0 },
             io := setIdx m.io 0x04 0x00 }
  else if address = 0xFF05 then
    { m with io := setIdx m.io 0x05 value }
  else if address = 0xFF06 then
    { m with io := setIdx m.io 0x06 value }
  else if address = 0xFF07 then
    -- only bits 0-2 are used; TIMA counter reset when TAC changes
    { m with io := setIdx m.io 0x07 (value &&& 0x07),
             timer := { m.timer with timaCounter := 0 } }
  else m

/-- `Memory.read_joypad` (memory.py:417-437). -/
def Memory.read_joypad (m : Memory) : Nat :=
  let joypadReg := m.io 0x00
  let result := 0xC0
  if joypadReg &&& 0x20 = 0 then
    (result ||| 0x20) ||| (m.joypadButtons &&& 0x0F)
  else if joypadReg &&& 0x10 = 0 then
    (result ||| 0x10) ||| (m.joypadDirections &&& 0x0F)
  else
    result ||| 0x3F

/-- `Memory.read_byte` (memory.py:125-229).  The timer branch calls
`self.timer.tick(self.cpu.cycles)` when `self.timer` and `self.cpu` are both
attached; `class Timer` has no `tick` method, so that call raises
`AttributeError` (modelled as `.error .attributeErrorTick`). -/
def Memory.read_byte (m : Memory) (address : Nat) : Except EmuError Nat :=
  let address := address &&& 0xFFFF
  if address < 0x100 ∧ m.bootRomEnabled then
    .ok (m.bootRom address)
  else if address < 0x4000 then
    -- ROM Bank 0 (fixed)
    if address < m.romLen then .ok (m.rom address) else .ok 0xFF
  else if address < 0x8000 then
    -- ROM Bank 1-N (switchable)
    let bankAddress :=
      if m.romBank = 0 then (address - 0x4000) + 0x4000
      else (address - 0x4000) + (m.romBank * 0x4000)
    if bankAddress < m.romLen then .ok (m.rom bankAddress) else .ok 0xFF
  else if address < 0xA000 then
    .ok (m.vram (address - 0x8000))
  else if address < 0xC000 then
    if m.ramEnabled then .ok (m.eram (address - 0xA000)) else .ok 0xFF
  else if address < 0xE000 then
    .ok (m.wram (address - 0xC000))
  else if address < 0xFE00 then
    -- Echo RAM (mirrors work RAM)
    .ok (m.wram (address - 0xE000))
  else if address < 0xFEA0 then
    .ok (m.oam (address - 0xFE00))
  else if address < 0xFF00 then
    .ok 0xFF
  else if address < 0xFF80 then
    -- I/O registers
    if address = 0xFF40 then .ok (m.io (address - 0xFF00))
    else if address = 0xFF41 then .ok (m.io (address - 0xFF00))
    else if address = 0xFF42 then .ok (m.io (address - 0xFF00))
    else if address = 0xFF43 then .ok (m.io (address - 0xFF00))
    else if address = 0xFF44 then .ok (m.io (address - 0xFF00))
    else if address = 0xFF45 then .ok (m.io (address - 0xFF00))
    else if address = 0xFF47 then .ok (m.io (address - 0xFF00))
    else if address = 0xFF48 then .ok (m.io (address - 0xFF00))
    else if address = 0xFF49 then .ok (m.io (address - 0xFF00))
    else if address = 0xFF4A then .ok (m.io (address - 0xFF00))
    else if address = 0xFF4B then .ok (m.io (address - 0xFF00))
    else if address = 0xFF00 then .ok m.read_joypad
    else if 0xFF01 ≤ address ∧ address ≤ 0xFF02 then
      -- serial is None in the modelled configuration
      .ok (m.io (address - 0xFF00))
    else if 0xFF04 ≤ address ∧ address ≤ 0xFF07 then
      if m.timerPresent then
        if m.cpuPresent then
          -- self.timer.tick(self.cpu.cycles): Timer has no attribute tick
          .error .attributeErrorTick
        else
          .ok (Timer.read_register m address)
      else
        .ok (m.io (address - 0xFF00))
    else
      -- audio branch requires self.apu (None here); fall through
      .ok (m.io (address - 0xFF00))
  else if address < 0xFFFF then
    .ok (m.hram (address - 0xFF80))
  else
    -- address = 0xFFFF (address is masked to 16 bits above)
    .ok m.ie

/-- `Memory.write_joypad` (memory.py:439-442). -/
def Memory.write_joypad (m : Memory) (value : Nat) : Memory :=
  { m with io := setIdx m.io 0x00 ((value &&& 0x30) ||| 0xC0) }

/-- `Memory.write_byte` (memory.py:231-340).  Same `timer.tick` failure as
`read_byte` on the timer-register range when `cpu` is attached.  The SCY
clamp at `0xFF42` and the `_text_writes` counter are modelled; debug prints
are omitted. -/
def Memory.write_byte (m : Memory) (address value : Nat) :
    Except EmuError Memory :=
  let address := address &&& 0xFFFF
  let value := value &&& 0xFF
  if address < 0x2000 then
    .ok { m with ramEnabled := value &&& 0x0F = 0x0A }
  else if address < 0x4000 then
    let bank := value &&& 0x1F
    let bank := if bank = 0 then 1 else bank
    .ok { m with romBank := (m.romBank &&& 0x60) ||| bank }
  else if address < 0x6000 then
    if m.bankingMode = 0 then
      .ok { m with romBank := (m.romBank &&& 0x1F) ||| ((value &&& 0x03) <<< 5) }
    else
      .ok { m with ramBank := value &&& 0x03 }
  else if address < 0x8000 then
    .ok { m with bankingMode := value &&& 0x01 }
  else if address < 0xA000 then
    -- VRAM; writes ≥ 0x9800 of a non-space byte bump self._text_writes
    let m := if 0x9800 ≤ address ∧ value ≠ 0x20 then
               { m with textWrites := m.textWrites + 1 }
             else m
    .ok { m with vram := setIdx m.vram (address - 0x8000) value }
  else if address < 0xC000 then
    if m.ramEnabled then
      .ok { m with eram := setIdx m.eram (address - 0xA000) value }
    else .ok m
  else if address < 0xE000 then
    .ok { m with wram := setIdx m.wram (address - 0xC000) value }
  else if address < 0xFE00 then
    .ok { m with wram := setIdx m.wram (address - 0xE000) value }
  else if address < 0xFEA0 then
    .ok { m with oam := setIdx m.oam (address - 0xFE00) value }
  else if address < 0xFF00 then
    .ok m
  else if address < 0xFF80 then
    if address = 0xFF00 then
      .ok (m.write_joypad value)
    else if 0xFF01 ≤ address ∧ address ≤ 0xFF02 then
      -- serial is None in the modelled configuration
      .ok { m with io := setIdx m.io (address - 0xFF00) value }
    else if 0xFF04 ≤ address ∧ address ≤ 0xFF07 then
      if m.timerPresent then
        if m.cpuPresent then
          -- self.timer.tick(self.cpu.cycles): Timer has no attribute tick
          .error .attributeErrorTick
        else
          .ok (Timer.write_register m address value)
      else
        .ok { m with io := setIdx m.io (address - 0xFF00) value }
    else if address = 0xFF42 then
      -- SCY clamp: values above 64 are limited to 64
      let value := if value > 64 then 64 else value
      .ok { m with io := setIdx m.io (address - 0xFF00) value }
    else if address = 0xFF50 then
      let m := if value ≠ 0 then { m with bootRomEnabled := false } else m
      .ok { m with io := setIdx m.io (address - 0xFF00) value }
    else
      -- audio branch requires self.apu (None here); fall through
      .ok { m with io := setIdx m.io (address - 0xFF00) value }
  else if address < 0xFFFF then
    .ok { m with hram := setIdx m.hram (address - 0xFF80) value }
  else
    .ok { m with ie := value }

/-- The DIV while-loop of `Timer.update` (timer.py:109-113):
`while div_counter >= 256: div_counter -= 256; io[0x04] = (io[0x04]+1)&0xFF`. -/
def Timer.div_loop (m : Memory) : Memory :=
  if m.timer.divCounter ≥ 256 then
    Timer.div_loop
      { m with timer := { m.timer with divCounter := m.timer.divCounter - 256 },
               io := setIdx m.io 0x04 ((m.io 0x04 + 1) &&& 0xFF) }
  else m
termination_by m.timer.divCounter
decreasing_by simp_all; omega

/-- The TIMA while-loop of `Timer.update` (timer.py:157-181):
`while tima_counter >= divider:` decrement the counter, then either increment
TIMA or, when TIMA is `0xFF`, set it to 0, arm the 4-cycle overflow delay and
break.  The `0 < d` conjunct makes termination explicit; the divider is one of
1024/16/64/256 in every call, so it never changes behaviour. -/
def Timer.tima_loop (d : Nat) (m : Memory) : Memory :=
  if h : 0 < d ∧ d ≤ m.timer.timaCounter then
    let m1 := { m with timer := { m.timer with
                  timaCounter := m.timer.timaCounter - d } }
    let tima := m1.io 0x05
    if tima = 0xFF then
      -- TIMA overflow: TIMA becomes 0 now, reload+interrupt in 4 T-cycles
      { m1 with io := setIdx m1.io 0x05 0x00,
                timer := { m1.timer with timaOverflowDelay := 4 } }
    else
      Timer.tima_loop d { m1 with io := setIdx m1.io 0x05 (tima + 1) }
  else m
termination_by m.timer.timaCounter
decreasing_by simp; omega

/-- The `for i in range(tima_increments)` loop of the `mem_timing` branch of
`Timer.update` (timer.py:138-150), with its overflow break. -/
def Timer.tima_for : Nat → Memory → Memory
  | 0, m => m
  | k + 1, m =>
    let tima := m.io 0x05
    if tima = 0xFF then
      { m with io := setIdx m.io 0x05 0x00,
               timer := { m.timer with timaOverflowDelay := 4 } }
    else
      Timer.tima_for k { m with io := setIdx m.io 0x05 (tima + 1) }

/-- `Timer.update` (timer.py:70-181).  The overflow-delay block runs first and
consumes cycles; on completion it reloads TIMA from TMA and sets IF bit 2
through `memory.read_byte`/`write_byte` (address `0xFF0F`, plain io path).
Then the DIV counter advances, and if TAC enables the timer, TIMA counting
proceeds at the divider selected from the `frequencies` dict. -/
def Timer.update (m0 : Memory) (cycles : Nat) : Except EmuError Memory := do
  -- mem_timing 64-cycle counter
  let m := if m0.timer.memTimingEnabled then
             { m0 with timer := { m0.timer with
                 memTimingCounter := m0.timer.memTimingCounter + cycles } }
           else m0
  -- TIMA overflow delayed reload / interrupt
  let (m, remaining) ←
    if m.timer.timaOverflowDelay > 0 then do
      let delayCycles := min cycles m.timer.timaOverflowDelay
      let newDelay := m.timer.timaOverflowDelay - delayCycles
      let remaining := cycles - delayCycles
      let m := { m with timer := { m.timer with timaOverflowDelay := newDelay } }
      if newDelay = 0 then do
        let tma := m.io 0x06
        let m := { m with io := setIdx m.io 0x05 tma }
        let ifReg ← m.read_byte 0xFF0F
        let m ← m.write_byte 0xFF0F (ifReg ||| 0x04)
        pure ({ m with timer := { m.timer with timaOverflowDelay := 0 } },
              remaining)
      else
        pure (m, remaining)
    else
      pure (m, cycles)
  -- `if remaining_cycles <= 0: return` (cycles are Nat here)
  if remaining = 0 then
    pure m
  else
    -- DIV counter always runs
    let m := Timer.div_loop
      { m with timer := { m.timer with
          divCounter := m.timer.divCounter + remaining } }
    let tac := m.io 0x07
    if tac &&& 0x04 = 0 then
      pure m
    else
      let freqSelect := tac &&& 0x03
      match Timer.frequencies freqSelect with
      | none => .error .dictKeyError
      | some divider =>
        if m.timer.memTimingEnabled ∧ divider = 64 then
          let oldTimaCounter := m.timer.timaCounter
          let m := { m with timer := { m.timer with
                       timaCounter := oldTimaCounter + remaining } }
          let timaIncrements :=
            (oldTimaCounter + remaining) / 64 - oldTimaCounter / 64
          pure (Timer.tima_for timaIncrements m)
        else
          let m := { m with timer := { m.timer with
                       timaCounter := m.timer.timaCounter + remaining } }
          pure (Timer.tima_loop divider m)

/-- The scanline while-loop of `PPU.step` (ppu.py:949-962): every 456 cycles
LY advances modulo 154 through `memory.read_byte`/`write_byte` at `0xFF44`;
entering LY=144 sets IF bit 0, re-entering LY=0 clears it.  The PPU's own
`ppu_cycles` accumulator is passed alongside the memory. -/
def PPU.step_loop (m : Memory) (ppuCycles : Nat) :
    Except EmuError (Memory × Nat) := do
  if ppuCycles ≥ 456 then do
    let ly ← m.read_byte 0xFF44
    let ly := (ly + 1) % 154
    let m ← m.write_byte 0xFF44 ly
    let m ←
      if ly = 144 then do
        let ifReg ← m.read_byte 0xFF0F
        m.write_byte 0xFF0F (ifReg ||| 0x01)
      else if ly = 0 then do
        let ifReg ← m.read_byte 0xFF0F
        m.write_byte 0xFF0F (pyAndNot ifReg 0x01)
      else
        pure m
    PPU.step_loop m (ppuCycles - 456)
  else
    pure (m, ppuCycles)
termination_by ppuCycles
decreasing_by simp; omega

/-- `PPU.step` (ppu.py:941-962) — the second, overriding definition of `step`
in `class PPU` (Python keeps the later definition).  It never reads LCDC
(`0xFF40`) and never touches `self.mode`: it only accumulates `ppu_cycles`
and runs the scanline loop. -/
def PPU.step (m : Memory) (ppuCycles cycles : Nat) :
    Except EmuError (Memory × Nat) :=
  PPU.step_loop m (ppuCycles + cycles)

/-- Register and interrupt state of `class CPU` (cpu.py:87-134).  The
`memory_scheduler` is omitted: none of the instructions modelled below ever
call `schedule_read`/`schedule_write`, so `scheduled_accesses` stays `[]` and
every `execute_due_accesses` call is a no-op. -/
structure CPU where
  a : Nat
  b : Nat
  c : Nat
  d : Nat
  e : Nat
  h : Nat
  l : Nat
  sp : Nat
  pc : Nat
  flagZ : Bool
  flagN : Bool
  flagH : Bool
  flagC : Bool
  cycles : Nat
  ime : Bool              -- self.interrupt_master_enable
  halted : Bool
  eiDelay : Nat           -- self.ei_delay
  haltBugActive : Bool    -- self.halt_bug_active
deriving Repr

/-- The EI-delay block at the top of `CPU.step` (cpu.py:514-518): decrement
`ei_delay` when positive, enabling IME the moment it reaches zero. -/
def CPU.ei_tick (c : CPU) : CPU :=
  if c.eiDelay > 0 then
    if c.eiDelay - 1 = 0 then
      { c with eiDelay := c.eiDelay - 1, ime := true }
    else
      { c with eiDelay := c.eiDelay - 1 }
  else c

/-- `CPU.push_byte` (cpu.py:287-290): pre-decrement SP (with 16-bit wrap,
see module comment on `- 1`), then write through the MMU at the new SP. -/
def CPU.push_byte (c : CPU) (m : Memory) (value : Nat) :
    Except EmuError (CPU × Memory) := do
  let m ← m.write_byte ((c.sp + 0xFFFF) &&& 0xFFFF) (value &&& 0xFF)
  pure ({ c with sp := (c.sp + 0xFFFF) &&& 0xFFFF }, m)

/-- `CPU.push_word` (cpu.py:292-295): high byte first, then low byte. -/
def CPU.push_word (c : CPU) (m : Memory) (value : Nat) :
    Except EmuError (CPU × Memory) := do
  let r ← c.push_byte m ((value >>> 8) &&& 0xFF)
  r.1.push_byte r.2 (value &&& 0xFF)

/-- `CPU.pop_byte` (cpu.py:297-301). -/
def CPU.pop_byte (c : CPU) (m : Memory) : Except EmuError (Nat × CPU) := do
  let value ← m.read_byte c.sp
  pure (value, { c with sp := (c.sp + 1) &&& 0xFFFF })

/-- `CPU.pop_word` (cpu.py:303-307): low byte first, then high byte. -/
def CPU.pop_word (c : CPU) (m : Memory) : Except EmuError (Nat × CPU) := do
  let (low, c) ← c.pop_byte m
  let (high, c) ← c.pop_byte m
  pure ((high <<< 8) ||| low, c)

/-- `CPU.fetch_byte` (cpu.py:275-279). -/
def CPU.fetch_byte (c : CPU) (m : Memory) : Except EmuError (Nat × CPU) := do
  let byte ← m.read_byte c.pc
  pure (byte, { c with pc := (c.pc + 1) &&& 0xFFFF })

/-- `CPU.inc_8bit` (cpu.py:309-316): increment with Z/N/H flag updates. -/
def CPU.inc_8bit (c : CPU) (value : Nat) : CPU × Nat :=
  let result := (value + 1) &&& 0xFF
  ({ c with flagZ := result = 0,
            flagN := false,
            flagH := (value &&& 0x0F) + 1 > 0x0F }, result)

/-- `CPU._service_interrupt` (cpu.py:205-221): clear IME, clear the IF bit,
push PC, jump to the vector, charge 20 T-cycles.  The source clears
`interrupt_master_enable` first; since the MMU operations never read the CPU
object, the IME-cleared CPU is passed directly to the push. -/
def CPU.service_interrupt (c : CPU) (m : Memory) (vector flagBit : Nat) :
    Except EmuError (CPU × Memory) := do
  let ifReg ← m.read_byte 0xFF0F
  let m ← m.write_byte 0xFF0F (pyAndNot ifReg flagBit)
  let r ← CPU.push_word { c with ime := false } m c.pc
  pure ({ r.1 with pc := vector, cycles := r.1.cycles + 20 }, r.2)

/-- `CPU.handle_interrupts` (cpu.py:175-203): with IME on, the lowest-set bit
of `IE & IF` among bits 0..4 is serviced; `none` means the Python method
returned `False`. -/
def CPU.handle_interrupts (c : CPU) (m : Memory) :
    Except EmuError (Option (CPU × Memory)) := do
  if ¬ c.ime then
    pure none
  else
    let ie ← m.read_byte 0xFFFF
    let ifReg ← m.read_byte 0xFF0F
    let pending := ie &&& ifReg
    if pending &&& 0x01 ≠ 0 then
      some <$> c.service_interrupt m 0x40 0x01
    else if pending &&& 0x02 ≠ 0 then
      some <$> c.service_interrupt m 0x48 0x02
    else if pending &&& 0x04 ≠ 0 then
      some <$> c.service_interrupt m 0x50 0x04
    else if pending &&& 0x08 ≠ 0 then
      some <$> c.service_interrupt m 0x58 0x08
    else if pending &&& 0x10 ≠ 0 then
      some <$> c.service_interrupt m 0x60 0x10
    else
      pure none

/-- `CPU.execute_instruction` (cpu.py:564-1711), restricted to the opcodes the
claims exercise; every other opcode yields the model-boundary marker
`unmodelledOpcode` (see `EmuError`).  Modelled opcodes:
`0x00` NOP, `0x3C` INC A, `0x76` HALT (with the HALT-bug arming),
`0xF2` LD A,(0xFF00+C), `0xF3` DI, `0xFB` EI, `0xD9` RETI, and `0xED`
(explicit `raise NotImplementedError` in the source). -/
def CPU.execute_instruction (c : CPU) (m : Memory) (opcode : Nat) :
    Except EmuError (CPU × Memory) := do
  if opcode = 0x00 then          -- NOP
    pure ({ c with cycles := c.cycles + 4 }, m)
  else if opcode = 0x3C then     -- INC A
    let (c, r) := c.inc_8bit c.a
    pure ({ c with a := r, cycles := c.cycles + 4 }, m)
  else if opcode = 0x76 then     -- HALT (cpu.py:1222-1241)
    let ie ← m.read_byte 0xFFFF
    let ifReg ← m.read_byte 0xFF0F
    let pending := ie &&& ifReg
    let c :=
      if c.ime then
        { c with halted := true }
      else if pending ≠ 0 then
        -- HALT bug: do not halt; next instruction executes twice
        { c with halted := false, haltBugActive := true }
      else
        { c with halted := true }
    pure ({ c with cycles := c.cycles + 4 }, m)
  else if opcode = 0xF2 then     -- LD A, (0xFF00+C) (cpu.py:1275-1278)
    let value ← m.read_byte (0xFF00 + c.c)
    pure ({ c with a := value, cycles := c.cycles + 8 }, m)
  else if opcode = 0xF3 then     -- DI (cpu.py:1214-1216)
    pure ({ c with ime := false, cycles := c.cycles + 4 }, m)
  else if opcode = 0xFB then     -- EI (cpu.py:1217-1220)
    pure ({ c with eiDelay := 2, cycles := c.cycles + 4 }, m)
  else if opcode = 0xD9 then     -- RETI (cpu.py:1279-1282)
    let (value, c) ← c.pop_word m
    pure ({ c with pc := value, ime := true, cycles := c.cycles + 16 }, m)
  else if opcode = 0xED then     -- raise NotImplementedError (cpu.py:1430-1431)
    .error .notImplementedOpcode
  else
    .error (.unmodelledOpcode opcode)

/-- `CPU.step` (cpu.py:512-562): EI-delay tick, then the halted-idle /
interrupt-dispatch / HALT-bug / normal-fetch paths.  All
`memory_scheduler.execute_due_accesses` calls are no-ops here (see `CPU`). -/
def CPU.step (c : CPU) (m : Memory) : Except EmuError (CPU × Memory) := do
  let c := c.ei_tick
  if c.halted then
    match ← c.handle_interrupts m with
    | some (c, m) => pure ({ c with halted := false }, m)
    | none => pure ({ c with cycles := c.cycles + 4 }, m)
  else
    match ← c.handle_interrupts m with
    | some r => pure r
    | none =>
      if c.haltBugActive then
        -- HALT bug: fetch and execute, rewind PC, fetch and execute again
        let (opcode, c) ← c.fetch_byte m
        let (c, m) ← c.execute_instruction m opcode
        let c := { c with pc := (c.pc + 0xFFFF) &&& 0xFFFF }
        let (opcode, c) ← c.fetch_byte m
        let (c, m) ← c.execute_instruction m opcode
        pure ({ c with haltBugActive := false }, m)
      else
        let (opcode, c) ← c.fetch_byte m
        c.execute_instruction m opcode

/-- A zeroed `Memory` used as the base of the concrete machine states in the
theorems below: empty 32KiB ROM image, all RAM/IO bytes 0, reset banking, no
timer or cpu attached (individual theorems override fields as needed). -/
def mem0 : Memory where
  rom := fun _ => 0
  romLen := 0x8000
  bootRom := fun _ => 0
  bootRomEnabled := false
  vram := fun _ => 0
  eram := fun _ => 0
  wram := fun _ => 0
  oam := fun _ => 0
  io := fun _ => 0
  hram := fun _ => 0
  ie := 0
  romBank := 1
  ramBank := 0
  bankingMode := 0
  ramEnabled := false
  joypadButtons := 0x0F
  joypadDirections := 0x0F
  timerPresent := false
  cpuPresent := false
  timer := ⟨0, 0, 0, 0, false⟩
  textWrites := 0

/-- A base CPU state for the concrete machine states in the theorems below:
registers cleared, `sp = 0xFFFE`, `pc = 0xC000` (start of WRAM, where the
test programs are placed), IME off, not halted. -/
def cpu0 : CPU where
  a := 0
  b := 0
  c := 0
  d := 0
  e := 0
  h := 0
  l := 0
  sp := 0xFFFE
  pc := 0xC000
  flagZ := false
  flagN := false
  flagH := false
  flagC := false
  cycles := 0
  ime := false
  halted := false
  eiDelay := 0
  haltBugActive := false

theorem land_ffff (x : Nat) : x &&& 0xFFFF = x % 65536 := by
  have h := Nat.and_pow_two_sub_one_eq_mod x 16
  norm_num at h
  exact h

theorem land_ff (x : Nat) : x &&& 0xFF = x % 256 := by
  have h := Nat.and_pow_two_sub_one_eq_mod x 8
  norm_num at h
  exact h

theorem pyAndNot_testBit (x y i : Nat) :
    (pyAndNot x y).testBit i = (x.testBit i && !(y.testBit i)) := by
  unfold pyAndNot
  simp only [Nat.testBit_xor, Nat.testBit_and]
  cases x.testBit i <;> cases y.testBit i <;> rfl

/-- Claim C1 (code_bug evidence).  In the emulator-wired configuration
(`memory.timer` and `memory.cpu` attached), executing `LD A,(0xFF00+C)` with
`C = 0x04` — an MMU read of the DIV register 0xFF04 — makes `CPU.step`
propagate the `AttributeError` from the missing `Timer.tick` method instead
of completing normally; with `memory.cpu` not attached the very same access
completes and loads `A = 0`.  The specification asserts that no exception
propagates out of `step()` and that timer-register accesses through the MMU
always return normally; the code contradicts this (and its own call sites,
which assume `Timer.tick` exists). -/
theorem c1_timer_mmu_access_raises :
    CPU.step { cpu0 with c := 0x04 }
        { mem0 with timerPresent := true, cpuPresent := true,
                    wram := fun i => if i = 0 then 0xF2 else 0 }
      = .error .attributeErrorTick ∧
    (CPU.step { cpu0 with c := 0x04 }
        { mem0 with timerPresent := true, cpuPresent := false,
                    wram := fun i => if i = 0 then 0xF2 else 0 }).map
        (fun p => p.1.a)
      = .ok 0 := by
  exact ⟨rfl, rfl⟩

/-- Claim C10 (confirmed).  From IME=0, IE=0x01, IF=0x01, A=0x00 and PC at the
byte sequence `76 3C 00` (HALT; INC A; NOP) in WRAM, two `CPU.step` calls
leave `A = 0x02`: HALT with pending interrupts and IME off arms the HALT bug
and the following `INC A` executes twice. -/
theorem c10_halt_bug_double_increment :
    ((CPU.step cpu0
        { mem0 with ie := 0x01, io := setIdx mem0.io 0x0F 0x01,
                    wram := fun i =>
                      if i = 0 then 0x76 else if i = 1 then 0x3C else 0x00 }).bind
      (fun p => CPU.step p.1 p.2)).map (fun p => p.1.a) = .ok 0x02 := by
  rfl


theorem except_ok_bind {ε α β : Type} (a : α) (f : α → Except ε β) :
    ((Except.ok a : Except ε α) >>= f) = f a := rfl

theorem except_pure_eq {ε α : Type} (a : α) :
    (pure a : Except ε α) = Except.ok a := rfl

theorem read_byte_ie (m : Memory) : m.read_byte 0xFFFF = .ok m.ie := rfl

theorem read_byte_ff0f (m : Memory) :
    m.read_byte 0xFF0F = .ok (m.io 0x0F) := rfl

theorem read_byte_ff44 (m : Memory) :
    m.read_byte 0xFF44 = .ok (m.io 0x44) := rfl

theorem write_byte_ff0f (m : Memory) (v : Nat) :
    m.write_byte 0xFF0F v
      = .ok { m with io := setIdx m.io 0x0F (v &&& 0xFF) } := rfl

theorem write_byte_ff44 (m : Memory) (v : Nat) :
    m.write_byte 0xFF44 v
      = .ok { m with io := setIdx m.io 0x44 (v &&& 0xFF) } := rfl

theorem div_loop_base (m : Memory) (h : m.timer.divCounter < 256) :
    Timer.div_loop m = m := by
  unfold Timer.div_loop
  rw [if_neg (by omega)]

/-- Closed form of the DIV while-loop: the counter is reduced modulo 256 and
`io[0x04]` absorbs one increment (mod 256) per 256 subtracted cycles; nothing
else changes. -/
theorem div_loop_spec (m : Memory) :
    m.io 0x04 < 256 →
    (Timer.div_loop m).timer.divCounter = m.timer.divCounter % 256 ∧
    (Timer.div_loop m).io 0x04 = (m.io 0x04 + m.timer.divCounter / 256) % 256 ∧
    (∀ j, j ≠ 0x04 → (Timer.div_loop m).io j = m.io j) ∧
    (Timer.div_loop m).timer.timaCounter = m.timer.timaCounter ∧
    (Timer.div_loop m).timer.timaOverflowDelay = m.timer.timaOverflowDelay ∧
    (Timer.div_loop m).timer.memTimingEnabled = m.timer.memTimingEnabled := by
  induction m using Timer.div_loop.induct with
  | case1 m hge ih =>
    intro h4
    rw [Timer.div_loop, if_pos hge]
    have h4' : (setIdx m.io 0x04 ((m.io 0x04 + 1) &&& 0xFF)) 0x04 < 256 := by
      simp [setIdx, land_ff]
      omega
    obtain ⟨i1, i2, i3, i4, i5, i6⟩ := ih h4'
    refine ⟨?_, ?_, ?_, ?_, ?_, ?_⟩
    · rw [i1]; simp; omega
    · rw [i2]; simp [setIdx, land_ff]; omega
    · intro j hj
      rw [i3 j hj]; simp [setIdx, hj]
    · rw [i4]
    · rw [i5]
    · rw [i6]
  | case2 m hlt =>
    intro h4
    rw [Timer.div_loop, if_neg hlt]
    have hdc : m.timer.divCounter < 256 := by omega
    refine ⟨by omega, by omega, fun j _ => rfl, rfl, rfl, rfl⟩

theorem tima_loop_pres_aux (d : Nat) :
    ∀ n (m : Memory), m.timer.timaCounter ≤ n →
    (∀ j, j ≠ 0x05 → (Timer.tima_loop d m).io j = m.io j) ∧
    (Timer.tima_loop d m).timer.divCounter = m.timer.divCounter := by
  intro n
  induction n with
  | zero =>
    intro m hm
    rw [Timer.tima_loop, dif_neg (by omega)]
    exact ⟨fun _ _ => rfl, rfl⟩
  | succ n ih =>
    intro m hm
    rw [Timer.tima_loop]
    by_cases hc : 0 < d ∧ d ≤ m.timer.timaCounter
    · rw [dif_pos hc]
      simp only [setIdx]
      by_cases hff : m.io 0x05 = 0xFF
      · rw [if_pos hff]
        exact ⟨fun j hj => by simp [setIdx, hj], rfl⟩
      · rw [if_neg hff]
        obtain ⟨i1, i2⟩ :=
          ih { m with io := setIdx m.io 0x05 (m.io 0x05 + 1),
                      timer := { m.timer with
                        timaCounter := m.timer.timaCounter - d } }
            (by simp; omega)
        simp only [setIdx] at i1 i2
        refine ⟨fun j hj => ?_, i2⟩
        rw [i1 j hj]
        simp [setIdx, hj]
    · rw [dif_neg hc]
      exact ⟨fun _ _ => rfl, rfl⟩

/-- The TIMA while-loop only writes `io[0x05]` and the TIMA-side timer
fields; `io` elsewhere and the DIV counter are untouched. -/
theorem tima_loop_pres (d : Nat) (m : Memory) :
    (∀ j, j ≠ 0x05 → (Timer.tima_loop d m).io j = m.io j) ∧
    (Timer.tima_loop d m).timer.divCounter = m.timer.divCounter :=
  tima_loop_pres_aux d m.timer.timaCounter m le_rfl

/-- The `frequencies` dict lookup in `Timer.update` always succeeds: the key
`tac & 3` is one of 0..3, and every stored divider is positive. -/
theorem frequencies_pos (t : Nat) :
    ∃ d, Timer.frequencies (t &&& 3) = some d ∧ 0 < d := by
  have h : t &&& 3 < 4 := by
    have := Nat.and_lt_two_pow t (show (3:Nat) < 2^2 by norm_num)
    simpa using this
  set k := t &&& 3 with hk
  interval_cases k
  · exact ⟨1024, rfl, by norm_num⟩
  · exact ⟨16, rfl, by norm_num⟩
  · exact ⟨64, rfl, by norm_num⟩
  · exact ⟨256, rfl, by norm_num⟩

theorem shiftr8_land_ff (x : Nat) (h : x < 256) : (x >>> 8) &&& 0xFF = 0 := by
  have hx : x >>> 8 = 0 := by
    rw [Nat.shiftRight_eq_div_pow]
    omega
  rw [hx]
  rfl

/-- What one `Timer.update` call really does to the DIV state when no
overflow delay is pending and mem-timing mode is off: the internal counter
becomes `(old + n) % 256` (so it never reaches bit 8), a read of DIV through
`Timer.read_register` returns 0, and the 256-cycle rollovers are accumulated
in `io[0x04]` instead. -/
theorem update_div_spec (m : Memory) (n : Nat)
    (hmt : m.timer.memTimingEnabled = false)
    (htod : m.timer.timaOverflowDelay = 0)
    (hdc : m.timer.divCounter < 256)
    (hio4 : m.io 0x04 < 256) :
    ∃ m', Timer.update m n = .ok m' ∧
      m'.timer.divCounter = (m.timer.divCounter + n) % 256 ∧
      Timer.read_register m' 0xFF04 = 0 ∧
      m'.io 0x04 = (m.io 0x04 + (m.timer.divCounter + n) / 256) % 256 := by
  unfold Timer.update
  simp only [hmt, htod, if_false, Bool.false_eq_true, gt_iff_lt, Nat.lt_irrefl,
    ite_false, except_pure_eq, except_ok_bind]
  by_cases hn : n = 0
  · rw [if_pos hn]
    refine ⟨m, rfl, by omega, ?_, by omega⟩
    simp only [Timer.read_register, if_pos rfl]
    exact shiftr8_land_ff _ (by omega)
  · rw [if_neg hn]
    set M : Memory :=
      { m with
        timer := { m.timer with
          divCounter := m.timer.divCounter + n
          timaOverflowDelay := 0
          memTimingEnabled := false } } with hM
    set md := Timer.div_loop M with hmd
    obtain ⟨d1, d2, d3, d4, d5, d6⟩ := div_loop_spec M (by simp [hM, hio4])
    rw [← hmd] at d1 d2 d3 d4 d5 d6
    have hdio4 : md.io 0x04
        = (m.io 0x04 + (m.timer.divCounter + n) / 256) % 256 := by
      rw [d2]
    have hddc : md.timer.divCounter = (m.timer.divCounter + n) % 256 := by
      rw [d1]
    have hdrd : Timer.read_register md 0xFF04 = 0 := by
      simp only [Timer.read_register, if_pos rfl]
      rw [hddc]
      exact shiftr8_land_ff _ (by omega)
    by_cases htac : md.io 0x07 &&& 4 = 0
    · rw [if_pos htac]
      exact ⟨md, rfl, hddc, hdrd, hdio4⟩
    · rw [if_neg htac]
      obtain ⟨dv, hfreq, hdvpos⟩ := frequencies_pos (md.io 0x07)
      simp only [hfreq]
      have hmte : md.timer.memTimingEnabled = false := by
        rw [d6]
      rw [if_neg (by simp [hmte])]
      set N : Memory :=
        { md with
          timer := { md.timer with
            timaCounter := md.timer.timaCounter + n } } with hN
      obtain ⟨t1, t2⟩ := tima_loop_pres dv N
      refine ⟨Timer.tima_loop dv N, rfl, ?_, ?_, ?_⟩
      · rw [t2]
        exact hddc
      · simp only [Timer.read_register, if_pos rfl]
        rw [t2]
        rw [show N.timer.divCounter = md.timer.divCounter from rfl, hddc]
        exact shiftr8_land_ff _ (by omega)
      · rw [t1 0x04 (by norm_num)]
        rw [show N.io 0x04 = md.io 0x04 from rfl]
        exact hdio4

/-- Claim C2 (counterexample).  At `div_counter = 0`, after a single
`Timer.update` of 256 T-cycles with no DIV write, the claimed DIV value is
`((0 + 256) >> 8) & 0xFF = 1`, but `Timer.read_register 0xFF04` returns 0:
`update` reduces the counter modulo 256 (moving the rollover into
`io[0x04]`), so DIV never exposes bits 15..8 of the elapsed-cycle count. -/
theorem c2_counterexample :
    (∃ m', Timer.update mem0 256 = .ok m' ∧
        Timer.read_register m' 0xFF04 = 0) ∧
    ((0 + 256) >>> 8) &&& 0xFF = 1 ∧ (0 : Nat) ≠ 1 := by
  refine ⟨?_, by decide, by decide⟩
  obtain ⟨m', h1, _, h3, _⟩ :=
    update_div_spec mem0 256 rfl rfl (by decide) (by decide)
  exact ⟨m', h1, h3⟩

/-- Claim C2 (amended).  In a single `Timer.update` call of `n` T-cycles with
no pending overflow delay, mem-timing mode off and the invariant
`div_counter < 256`, the internal divider counter becomes
`(initial + n) % 256` — it is kept strictly below 256 by the update loop —
so a read of DIV (0xFF04) through `Timer.read_register` returns
`((initial + n) % 256) >> 8 = 0`, not `((initial + n) >> 8) & 0xFF`; the
number of elapsed 256-cycle periods accumulates in `memory.io[0x04]`
(modulo 256) instead of in the counter's high bits. -/
theorem c2_div_read_is_zero (m : Memory) (n : Nat)
    (hmt : m.timer.memTimingEnabled = false)
    (htod : m.timer.timaOverflowDelay = 0)
    (hdc : m.timer.divCounter < 256)
    (hio4 : m.io 0x04 < 256) :
    ∃ m', Timer.update m n = .ok m' ∧
      m'.timer.divCounter = (m.timer.divCounter + n) % 256 ∧
      Timer.read_register m' 0xFF04
        = ((m.timer.divCounter + n) % 256) >>> 8 ∧
      Timer.read_register m' 0xFF04 = 0 ∧
      m'.io 0x04 = (m.io 0x04 + (m.timer.divCounter + n) / 256) % 256 := by
  obtain ⟨m', h1, h2, h3, h4⟩ := update_div_spec m n hmt htod hdc hio4
  refine ⟨m', h1, h2, ?_, h3, h4⟩
  rw [h3]
  have h0 : ((m.timer.divCounter + n) % 256) >>> 8 = 0 := by
    rw [Nat.shiftRight_eq_div_pow]
    omega
  rw [h0]

/-- Witness for `c2_div_read_is_zero` at `mem0` and `n = 300`. -/
theorem c2_div_read_is_zero_witness :
    mem0.timer.memTimingEnabled = false ∧
    mem0.timer.timaOverflowDelay = 0 ∧
    mem0.timer.divCounter < 256 ∧
    mem0.io 0x04 < 256 ∧
    (∃ m', Timer.update mem0 300 = .ok m' ∧
      m'.timer.divCounter = (mem0.timer.divCounter + 300) % 256 ∧
      Timer.read_register m' 0xFF04
        = ((mem0.timer.divCounter + 300) % 256) >>> 8 ∧
      Timer.read_register m' 0xFF04 = 0 ∧
      m'.io 0x04 = (mem0.io 0x04 + (mem0.timer.divCounter + 300) / 256) % 256) :=
  ⟨rfl, rfl, by decide, by decide,
    c2_div_read_is_zero mem0 300 rfl rfl (by decide) (by decide)⟩

theorem tima_loop_base (d : Nat) (m : Memory)
    (h : m.timer.timaCounter < d) : Timer.tima_loop d m = m := by
  rw [Timer.tima_loop, dif_neg (by omega)]

/-- `Timer.update` when the TIMA accumulator does not reach the divider:
DIV advances as usual and `io[0x05]` (TIMA) is untouched. -/
theorem update_no_tima_increment (m : Memory) (n : Nat)
    (hmt : m.timer.memTimingEnabled = false)
    (htod : m.timer.timaOverflowDelay = 0)
    (hdc : m.timer.divCounter < 256)
    (hio4 : m.io 0x04 < 256)
    (hlow : ∀ d, Timer.frequencies (m.io 0x07 &&& 3) = some d →
      m.timer.timaCounter + n < d) :
    ∃ m', Timer.update m n = .ok m' ∧
      m'.timer.divCounter = (m.timer.divCounter + n) % 256 ∧
      m'.io 0x05 = m.io 0x05 := by
  unfold Timer.update
  simp only [hmt, htod, if_false, Bool.false_eq_true, gt_iff_lt, Nat.lt_irrefl,
    ite_false, except_pure_eq, except_ok_bind]
  by_cases hn : n = 0
  · rw [if_pos hn]
    exact ⟨m, rfl, by omega, rfl⟩
  · rw [if_neg hn]
    set M : Memory :=
      { m with
        timer := { m.timer with
          divCounter := m.timer.divCounter + n
          timaOverflowDelay := 0
          memTimingEnabled := false } } with hM
    set md := Timer.div_loop M with hmd
    obtain ⟨d1, d2, d3, d4, d5, d6⟩ := div_loop_spec M (by simp [hM, hio4])
    rw [← hmd] at d1 d2 d3 d4 d5 d6
    have hddc : md.timer.divCounter = (m.timer.divCounter + n) % 256 := by
      rw [d1]
    have hd5 : md.io 0x05 = m.io 0x05 := d3 0x05 (by norm_num)
    by_cases htac : md.io 0x07 &&& 4 = 0
    · rw [if_pos htac]
      exact ⟨md, rfl, hddc, hd5⟩
    · rw [if_neg htac]
      obtain ⟨dv, hfreq, hdvpos⟩ := frequencies_pos (md.io 0x07)
      simp only [hfreq]
      rw [if_neg (by simp [d6])]
      set N : Memory :=
        { md with
          timer := { md.timer with
            timaCounter := md.timer.timaCounter + n } } with hN
      have hdv' : m.timer.timaCounter + n < dv := by
        apply hlow
        rw [show m.io 0x07 = M.io 0x07 from rfl, ← d3 0x07 (by norm_num)]
        exact hfreq
      have hbase : Timer.tima_loop dv N = N := by
        apply tima_loop_base
        rw [show N.timer.timaCounter = md.timer.timaCounter + n from rfl, d4]
        exact hdv'
      rw [hbase]
      refine ⟨N, rfl, ?_, ?_⟩
      · rw [show N.timer.divCounter = md.timer.divCounter from rfl, hddc]
      · rw [show N.io 0x05 = md.io 0x05 from rfl, hd5]

/-- Claim C3 (counterexample).  The claim's own scenario: TAC = 0x05 (timer
enabled, divider 16), TIMA = 0x00, advance 8 T-cycles so that bit 3 of the
internal divider counter — the bit the claimed edge detector samples at this
rate — is 1, then write 0x00 to DIV.  TIMA stays 0x00, not the claimed 0x01:
`Timer.write_register` performs no falling-edge detection. -/
theorem c3_counterexample :
    ∃ m', Timer.update (Timer.write_register mem0 0xFF07 0x05) 8 = .ok m' ∧
      (m'.timer.divCounter >>> 3) &&& 1 = 1 ∧
      (Timer.write_register m' 0xFF04 0x00).io 0x05 = 0x00 ∧
      ¬ (Timer.write_register m' 0xFF04 0x00).io 0x05 = 0x01 := by
  obtain ⟨m', h1, h2, h3⟩ :=
    update_no_tima_increment (Timer.write_register mem0 0xFF07 0x05) 8
      rfl rfl (by decide) (by decide)
      (by
        intro d hd
        have h16 : Timer.frequencies
            ((Timer.write_register mem0 0xFF07 0x05).io 0x07 &&& 3)
            = some 16 := by decide
        rw [h16] at hd
        have hd16 : d = 16 := (Option.some.inj hd).symm
        subst hd16
        decide)
  have hdiv : m'.timer.divCounter = 8 := by
    rw [h2]
    decide
  have htima : m'.io 0x05 = 0 := by
    rw [h3]
    decide
  refine ⟨m', h1, by rw [hdiv]; decide, ?_, ?_⟩ <;>
    simp [Timer.write_register, setIdx, htima]

/-- Claim C3 (amended).  A write to DIV (`Timer.write_register` at 0xFF04)
only resets the internal divider counter and the DIV byte `io[0x04]` to 0;
no falling-edge detection is performed and TIMA is never changed by it: TIMA
(`io[0x05]`), TMA (`io[0x06]`), TAC (`io[0x07]`) and the TIMA accumulation
counter are all left exactly as they were, for every state and value. -/
theorem c3_div_write_never_increments_tima (m : Memory) (v : Nat) :
    (Timer.write_register m 0xFF04 v).io 0x05 = m.io 0x05 ∧
    (Timer.write_register m 0xFF04 v).io 0x06 = m.io 0x06 ∧
    (Timer.write_register m 0xFF04 v).io 0x07 = m.io 0x07 ∧
    (Timer.write_register m 0xFF04 v).timer.timaCounter = m.timer.timaCounter ∧
    (Timer.write_register m 0xFF04 v).timer.divCounter = 0 ∧
    (Timer.write_register m 0xFF04 v).io 0x04 = 0 := by
  refine ⟨rfl, rfl, rfl, rfl, rfl, rfl⟩

/-- Claim C5 (counterexample).  Writing 0x00 to 0xFF46 on a memory whose byte
at 0x0000 is 0xAB does not copy that byte (or any byte) into OAM: after the
write, OAM byte 0 is still 0 while the DMA source byte reads back as 0xAB,
so the claimed atomic 160-byte OAM DMA transfer does not happen. -/
theorem c5_counterexample :
    (Memory.write_byte { mem0 with rom := fun i => if i = 0 then 0xAB else 0 }
        0xFF46 0x00).map (fun m => m.oam 0) = .ok 0x00 ∧
    Memory.read_byte { mem0 with rom := fun i => if i = 0 then 0xAB else 0 }
        0x0000 = .ok 0xAB ∧
    (0x00 : Nat) ≠ 0xAB := by
  refine ⟨rfl, rfl, by decide⟩

/-- Claim C5 (amended).  For every memory state and byte `v`, writing `v` to
0xFF46 through `Memory.write_byte` only stores `v` into `io[0x46]` (the
generic I/O fall-through branch of `write_byte`); OAM and everything else are
untouched — this core performs no OAM DMA transfer on a 0xFF46 write. -/
theorem c5_ff46_write_stores_io_only (m : Memory) (v : Nat) :
    Memory.write_byte m 0xFF46 v
      = .ok { m with io := setIdx m.io 0x46 (v &&& 0xFF) } := by
  rfl

/-- `Timer.update` when the enabled timer's accumulator crosses the divider
with TIMA at 0xFF: TIMA is set to 0 immediately, the 4-T-cycle overflow delay
is armed, and nothing else in `io` (in particular IF at `io[0x0F]` and TMA at
`io[0x06]`) changes except the DIV byte `io[0x04]`. -/
theorem update_overflow_spec (m : Memory) (n d : Nat)
    (hmt : m.timer.memTimingEnabled = false)
    (htod : m.timer.timaOverflowDelay = 0)
    (hio4 : m.io 0x04 < 256)
    (htac : m.io 0x07 &&& 4 ≠ 0)
    (hfreq : Timer.frequencies (m.io 0x07 &&& 3) = some d)
    (hff : m.io 0x05 = 0xFF)
    (hcross : d ≤ m.timer.timaCounter + n)
    (hn : n ≠ 0) :
    ∃ m', Timer.update m n = .ok m' ∧
      m'.io 0x05 = 0x00 ∧
      m'.timer.timaOverflowDelay = 4 ∧
      m'.timer.memTimingEnabled = false ∧
      Timer.read_register m' 0xFF05 = 0x00 ∧
      (∀ j, j ≠ 0x04 → j ≠ 0x05 → m'.io j = m.io j) := by
  unfold Timer.update
  simp only [hmt, htod, if_false, Bool.false_eq_true, gt_iff_lt, Nat.lt_irrefl,
    ite_false, except_pure_eq, except_ok_bind]
  rw [if_neg hn]
  set M : Memory :=
    { m with
      timer := { m.timer with
        divCounter := m.timer.divCounter + n
        timaOverflowDelay := 0
        memTimingEnabled := false } } with hM
  set md := Timer.div_loop M with hmd
  obtain ⟨d1, d2, d3, d4, d5, d6⟩ := div_loop_spec M (by simp [hM, hio4])
  rw [← hmd] at d1 d2 d3 d4 d5 d6
  have h7 : md.io 0x07 = m.io 0x07 := d3 0x07 (by norm_num)
  rw [if_neg (by rw [h7]; exact htac)]
  have hfreq' : Timer.frequencies (md.io 0x07 &&& 3) = some d := by
    rw [h7]; exact hfreq
  simp only [hfreq']
  rw [if_neg (by simp [d6])]
  set N : Memory :=
    { md with
      timer := { md.timer with
        timaCounter := md.timer.timaCounter + n } } with hN
  have hdpos : 0 < d := by
    obtain ⟨dv, hdv, hdvpos⟩ := frequencies_pos (m.io 0x07)
    rw [hfreq] at hdv
    have := Option.some.inj hdv
    omega
  have hNtc : N.timer.timaCounter = m.timer.timaCounter + n := by
    rw [show N.timer.timaCounter = md.timer.timaCounter + n from rfl, d4]
  have hN5 : N.io 0x05 = 0xFF := by
    rw [show N.io 0x05 = md.io 0x05 from rfl, d3 0x05 (by norm_num)]
    exact hff
  rw [Timer.tima_loop, dif_pos ⟨hdpos, by rw [hNtc]; exact hcross⟩]
  simp only [setIdx]
  rw [if_pos hN5]
  refine ⟨_, rfl, ?_, rfl, ?_, ?_, ?_⟩
  · simp [setIdx]
  · exact d6
  · simp [Timer.read_register, setIdx]
  · intro j hj4 hj5
    show setIdx md.io 0x05 0 j = m.io j
    rw [show setIdx md.io 0x05 0 j = md.io j from by simp [setIdx, hj5]]
    exact d3 j hj4

/-- `Timer.update` over exactly the 4 remaining delay T-cycles: the pending
overflow completes — TIMA (`io[0x05]`) is reloaded from TMA (`io[0x06]`),
IF bit 2 is set through the MMU, the delay is cleared — and no further
cycles remain for DIV/TIMA counting. -/
theorem update_reload_spec (m : Memory)
    (hmt : m.timer.memTimingEnabled = false)
    (htod : m.timer.timaOverflowDelay = 4) :
    ∃ m', Timer.update m 4 = .ok m' ∧
      m'.io 0x05 = m.io 0x06 ∧
      m'.io 0x0F = (m.io 0x0F ||| 4) &&& 0xFF ∧
      m'.timer.timaOverflowDelay = 0 ∧
      (∀ j, j ≠ 0x05 → j ≠ 0x0F → m'.io j = m.io j) := by
  unfold Timer.update
  simp only [hmt, htod, if_false, Bool.false_eq_true, ite_false,
    except_pure_eq, except_ok_bind, read_byte_ff0f, write_byte_ff0f]
  norm_num [setIdx]
  intro j h5 h15
  simp [h5, h15]

/-- Claim C4 (amended).  When the enabled timer increments TIMA past 0xFF,
TIMA immediately becomes 0x00 (and reads as 0x00 through
`Timer.read_register`) and a 4-T-cycle overflow delay is armed, with IF
untouched during the window; once a subsequent `Timer.update` consumes those
4 T-cycles, TIMA is reloaded from TMA and IF bit 2 is set.  A write to TIMA
(`Timer.write_register` at 0xFF05) during the window stores the value but
does **not** cancel the pending reload or the interrupt request: the delay
stays armed, the reload overwrites the written value with TMA, and IF bit 2
is still set. -/
theorem c4_tima_write_does_not_cancel_reload (m : Memory) (n d : Nat)
    (hmt : m.timer.memTimingEnabled = false)
    (htod : m.timer.timaOverflowDelay = 0)
    (hio4 : m.io 0x04 < 256)
    (htac : m.io 0x07 &&& 4 ≠ 0)
    (hfreq : Timer.frequencies (m.io 0x07 &&& 3) = some d)
    (hff : m.io 0x05 = 0xFF)
    (hcross : d ≤ m.timer.timaCounter + n)
    (hn : n ≠ 0)
    (hif : m.io 0x0F < 256) :
    ∃ m₁, Timer.update m n = .ok m₁ ∧
      m₁.io 0x05 = 0x00 ∧
      Timer.read_register m₁ 0xFF05 = 0x00 ∧
      m₁.timer.timaOverflowDelay = 4 ∧
      m₁.io 0x0F = m.io 0x0F ∧
      ∀ v,
        (Timer.write_register m₁ 0xFF05 v).timer.timaOverflowDelay = 4 ∧
        (Timer.write_register m₁ 0xFF05 v).io 0x05 = v &&& 0xFF ∧
        ∃ m₃, Timer.update (Timer.write_register m₁ 0xFF05 v) 4 = .ok m₃ ∧
          m₃.io 0x05 = m.io 0x06 ∧
          m₃.io 0x0F = m.io 0x0F ||| 4 ∧
          m₃.timer.timaOverflowDelay = 0 := by
  obtain ⟨m₁, h1, h5, htod4, hmte1, hrr, hpres⟩ :=
    update_overflow_spec m n d hmt htod hio4 htac hfreq hff hcross hn
  have h0F1 : m₁.io 0x0F = m.io 0x0F :=
    hpres 0x0F (by norm_num) (by norm_num)
  have h06 : m₁.io 0x06 = m.io 0x06 :=
    hpres 0x06 (by norm_num) (by norm_num)
  refine ⟨m₁, h1, h5, hrr, htod4, h0F1, ?_⟩
  intro v
  have hw_tod : (Timer.write_register m₁ 0xFF05 v).timer.timaOverflowDelay
      = 4 := htod4
  have hw_mt : (Timer.write_register m₁ 0xFF05 v).timer.memTimingEnabled
      = false := hmte1
  obtain ⟨m₃, h3, r5, r0F, rtod, rpres⟩ :=
    update_reload_spec (Timer.write_register m₁ 0xFF05 v) hw_mt hw_tod
  have hw06 : (Timer.write_register m₁ 0xFF05 v).io 0x06 = m.io 0x06 := by
    rw [show (Timer.write_register m₁ 0xFF05 v).io 0x06 = m₁.io 0x06 from by
      simp [Timer.write_register, setIdx]]
    exact h06
  have hw0F : (Timer.write_register m₁ 0xFF05 v).io 0x0F = m.io 0x0F := by
    rw [show (Timer.write_register m₁ 0xFF05 v).io 0x0F = m₁.io 0x0F from by
      simp [Timer.write_register, setIdx]]
    exact h0F1
  refine ⟨hw_tod, by simp [Timer.write_register, setIdx], m₃, h3, ?_, ?_, rtod⟩
  · rw [r5, hw06]
  · rw [r0F, hw0F, land_ff]
    have hlt : m.io 0x0F ||| 4 < 2 ^ 8 :=
      Nat.or_lt_two_pow (show m.io 0x0F < 2 ^ 8 by simpa using hif)
        (show 4 < 2 ^ 8 by norm_num)
    rw [Nat.mod_eq_of_lt (by simpa using hlt)]

/-- Witness for `c4_tima_write_does_not_cancel_reload`: TAC = 0x05
(enabled, divider 16), TMA = 0xAB, TIMA = 0xFF, 16 elapsed T-cycles, and a
write of 0x42 to TIMA inside the overflow window. -/
theorem c4_tima_write_does_not_cancel_reload_witness :
    ∃ m₁, Timer.update { mem0 with io := fun i =>
        if i = 0x05 then 0xFF else if i = 0x06 then 0xAB
        else if i = 0x07 then 0x05 else 0 } 16 = .ok m₁ ∧
      m₁.io 0x05 = 0x00 ∧
      m₁.timer.timaOverflowDelay = 4 ∧
      (Timer.write_register m₁ 0xFF05 0x42).timer.timaOverflowDelay = 4 ∧
      ∃ m₃, Timer.update (Timer.write_register m₁ 0xFF05 0x42) 4 = .ok m₃ ∧
        m₃.io 0x05 = 0xAB ∧
        m₃.io 0x0F = 0x04 := by
  obtain ⟨m₁, h1, h5, hrr, htod4, h0F, hv⟩ :=
    c4_tima_write_does_not_cancel_reload
      { mem0 with io := fun i =>
          if i = 0x05 then 0xFF else if i = 0x06 then 0xAB
          else if i = 0x07 then 0x05 else 0 } 16 16
      rfl rfl (by decide) (by decide) (by decide) (by decide) (by decide)
      (by decide) (by decide)
  obtain ⟨w1, w2, m₃, h3, r5, r0F, rtod⟩ := hv 0x42
  exact ⟨m₁, h1, h5, htod4, w1, m₃, h3, r5, r0F⟩

/-- Claim C4 (counterexample).  With TAC = 0x05, TMA = 0xAB, TIMA = 0xFF:
advancing 16 T-cycles overflows TIMA (TIMA = 0, delay armed); writing 0x42
to TIMA during the window and then updating 4 more T-cycles leaves
TIMA = 0xAB (the TMA reload overwrote the write) and IF bit 2 set — the
claimed cancellation of the reload and of the interrupt does not happen. -/
theorem c4_counterexample :
    ∃ m₁ m₃,
      Timer.update { mem0 with io := fun i =>
          if i = 0x05 then 0xFF else if i = 0x06 then 0xAB
          else if i = 0x07 then 0x05 else 0 } 16 = .ok m₁ ∧
      m₁.timer.timaOverflowDelay = 4 ∧
      Timer.update (Timer.write_register m₁ 0xFF05 0x42) 4 = .ok m₃ ∧
      m₃.io 0x05 = 0xAB ∧
      ¬ m₃.io 0x05 = 0x42 ∧
      ¬ m₃.io 0x0F &&& 0x04 = 0 := by
  obtain ⟨m₁, h1, h5, htod4, hmte1, hrr, hpres⟩ :=
    update_overflow_spec
      { mem0 with io := fun i =>
          if i = 0x05 then 0xFF else if i = 0x06 then 0xAB
          else if i = 0x07 then 0x05 else 0 } 16 16
      rfl rfl (by decide) (by decide) (by decide) (by decide) (by decide)
      (by decide)
  have hw_tod : (Timer.write_register m₁ 0xFF05 0x42).timer.timaOverflowDelay
      = 4 := htod4
  have hw_mt : (Timer.write_register m₁ 0xFF05 0x42).timer.memTimingEnabled
      = false := hmte1
  obtain ⟨m₃, h3, r5, r0F, rtod, rpres⟩ :=
    update_reload_spec (Timer.write_register m₁ 0xFF05 0x42) hw_mt hw_tod
  have hw06 : (Timer.write_register m₁ 0xFF05 0x42).io 0x06 = 0xAB := by
    rw [show (Timer.write_register m₁ 0xFF05 0x42).io 0x06 = m₁.io 0x06 from by
      simp [Timer.write_register, setIdx]]
    rw [hpres 0x06 (by norm_num) (by norm_num)]
    decide
  have hw0F : (Timer.write_register m₁ 0xFF05 0x42).io 0x0F = 0 := by
    rw [show (Timer.write_register m₁ 0xFF05 0x42).io 0x0F = m₁.io 0x0F from by
      simp [Timer.write_register, setIdx]]
    rw [hpres 0x0F (by norm_num) (by norm_num)]
    decide
  rw [hw06] at r5
  rw [hw0F] at r0F
  refine ⟨m₁, m₃, h1, htod4, h3, r5, by rw [r5]; decide, by rw [r0F]; decide⟩

/-- Claim C6 (counterexample).  A CPU halted with IME = false, IE = 0x01 and
IF = 0x01 (so `IE & IF & 0x1F ≠ 0`) stays halted after `CPU.step`: the
halted flag is still true (the claim says it becomes false), IF is
unchanged and PC is not redirected. -/
theorem c6_counterexample :
    (CPU.step { cpu0 with halted := true }
        { mem0 with ie := 0x01, io := setIdx mem0.io 0x0F 0x01 }).map
        (fun p => (p.1.halted, p.2.io 0x0F, p.1.pc))
      = .ok (true, 0x01, 0xC000) ∧
    ¬ ((CPU.step { cpu0 with halted := true }
        { mem0 with ie := 0x01, io := setIdx mem0.io 0x0F 0x01 }).map
        (fun p => p.1.halted) = .ok false) := by
  refine ⟨rfl, fun hcon => ?_⟩
  have hx : (CPU.step { cpu0 with halted := true }
      { mem0 with ie := 0x01, io := setIdx mem0.io 0x0F 0x01 }).map
      (fun p => p.1.halted) = .ok true := rfl
  rw [hx] at hcon
  injection hcon with hb
  exact Bool.noConfusion hb

/-- Claim C6 (amended).  If the CPU is halted with IME = false (and no EI
enable is pending), `CPU.step` does not end the halted state: because
`handle_interrupts` returns immediately when IME is off, the CPU remains
halted and only consumes 4 T-cycles, regardless of any pending bits in
IE & IF; no IF bit is cleared, PC is unchanged, and the halt can only end
on a step in which IME is true and an interrupt is serviced. -/
theorem c6_halted_ime_off_stays_halted (c : CPU) (m : Memory)
    (hh : c.halted = true) (hime : c.ime = false) (hei : c.eiDelay = 0) :
    CPU.step c m = .ok ({ c with cycles := c.cycles + 4 }, m) ∧
    ({ c with cycles := c.cycles + 4 } : CPU).halted = true ∧
    ({ c with cycles := c.cycles + 4 } : CPU).pc = c.pc ∧
    ({ c with cycles := c.cycles + 4 } : CPU).ime = false := by
  refine ⟨?_, by simp [hh], rfl, by simp [hime]⟩
  unfold CPU.step CPU.ei_tick CPU.handle_interrupts
  simp [hh, hime, hei, except_pure_eq, except_ok_bind]

/-- Witness for `c6_halted_ime_off_stays_halted` at the concrete halted
state with IE = IF = 0x01. -/
theorem c6_halted_ime_off_stays_halted_witness :
    ({ cpu0 with halted := true } : CPU).halted = true ∧
    ({ cpu0 with halted := true } : CPU).ime = false ∧
    ({ cpu0 with halted := true } : CPU).eiDelay = 0 ∧
    (CPU.step { cpu0 with halted := true }
        { mem0 with ie := 0x01, io := setIdx mem0.io 0x0F 0x01 }
      = .ok ({ { cpu0 with halted := true } with
                 cycles := ({ cpu0 with halted := true } : CPU).cycles + 4 },
             { mem0 with ie := 0x01, io := setIdx mem0.io 0x0F 0x01 })) :=
  ⟨rfl, rfl, rfl,
    (c6_halted_ime_off_stays_halted { cpu0 with halted := true }
      { mem0 with ie := 0x01, io := setIdx mem0.io 0x0F 0x01 }
      rfl rfl rfl).1⟩

theorem ei_tick_zero (c : CPU) (h : c.eiDelay = 0) : c.ei_tick = c := by
  unfold CPU.ei_tick
  rw [if_neg (by omega)]

theorem ei_tick_two (c : CPU) (h : c.eiDelay = 2) :
    c.ei_tick = { c with eiDelay := 1 } := by
  unfold CPU.ei_tick
  rw [if_pos (by omega), h]
  norm_num

theorem ei_tick_one (c : CPU) (h : c.eiDelay = 1) :
    c.ei_tick = { c with eiDelay := 0, ime := true } := by
  unfold CPU.ei_tick
  rw [if_pos (by omega), h]
  norm_num

theorem ei_tick_frame (c : CPU) :
    (c.ei_tick).halted = c.halted ∧
    (c.ei_tick).haltBugActive = c.haltBugActive ∧
    (c.ei_tick).pc = c.pc := by
  refine ⟨?_, ?_, ?_⟩ <;> (unfold CPU.ei_tick; split_ifs <;> rfl)

theorem and_bit5_zero (p b : Nat) (hb : 0x1F &&& b = b)
    (h : p &&& 0x1F = 0) : p &&& b = 0 := by
  calc p &&& b = p &&& (0x1F &&& b) := by rw [hb]
    _ = (p &&& 0x1F) &&& b := by rw [Nat.and_assoc]
    _ = 0 &&& b := by rw [h]
    _ = 0 := Nat.zero_and b

/-- `CPU.handle_interrupts` dispatches nothing when IME is off or when no
bit of `IE & IF & 0x1F` is pending. -/
theorem handle_interrupts_none (c : CPU) (m : Memory)
    (hdis : c.ime = false ∨ m.ie &&& m.io 0x0F &&& 0x1F = 0) :
    CPU.handle_interrupts c m = .ok none := by
  unfold CPU.handle_interrupts
  by_cases hime : c.ime
  · rcases hdis with hdis | hdis
    · rw [hdis] at hime; exact absurd hime (by simp)
    · simp only [hime, not_true, if_false, read_byte_ie, read_byte_ff0f,
        except_ok_bind, ite_false]
      rw [if_neg (by simp [and_bit5_zero _ 0x01 (by decide) hdis]),
          if_neg (by simp [and_bit5_zero _ 0x02 (by decide) hdis]),
          if_neg (by simp [and_bit5_zero _ 0x04 (by decide) hdis]),
          if_neg (by simp [and_bit5_zero _ 0x08 (by decide) hdis]),
          if_neg (by simp [and_bit5_zero _ 0x10 (by decide) hdis])]
      rfl
  · simp [hime, except_pure_eq]

/-- The normal-fetch path of `CPU.step`: with no halt, no HALT bug and no
interrupt dispatched, a step is the EI-delay tick, the fetch at the (ticked)
PC and the execution of the fetched opcode. -/
theorem step_exec (c : CPU) (m : Memory) (op : Nat)
    (hh : c.halted = false) (hb : c.haltBugActive = false)
    (hdis : (c.ei_tick).ime = false ∨ m.ie &&& m.io 0x0F &&& 0x1F = 0)
    (hfetch : m.read_byte (c.ei_tick).pc = .ok op) :
    CPU.step c m
      = CPU.execute_instruction
          { c.ei_tick with pc := ((c.ei_tick).pc + 1) &&& 0xFFFF } m op := by
  obtain ⟨f1, f2, f3⟩ := ei_tick_frame c
  unfold CPU.step CPU.fetch_byte
  simp only [handle_interrupts_none _ _ hdis, f1, f2, hh, hb, if_false,
    Bool.false_eq_true, ite_false, except_pure_eq, except_ok_bind, hfetch]

/-- Claim C8 (confirmed).  EI (`0xFB`) only schedules IME: after the EI step,
IME is still false and `ei_delay = 2`.  At the start of the next step the
delay ticks to 1 without enabling IME, so the interrupt-dispatch check of the
instruction immediately following EI observes IME = false and services
nothing; after that following instruction (here a NOP) completes, IME is
still false, and it is the EI-delay tick at the start of the *next* step
that finally sets IME = true — an interrupt can first be serviced at the
step after the following instruction.  DI (`0xF3`), by contrast, clears IME
within its own instruction. -/
theorem c8_ei_delayed_di_immediate (s t : CPU) (ms mt : Memory)
    (h1 : s.halted = false) (h2 : s.haltBugActive = false)
    (h3 : s.ime = false) (h4 : s.eiDelay = 0)
    (h5 : ms.read_byte s.pc = .ok 0xFB)
    (h6 : ms.read_byte ((s.pc + 1) &&& 0xFFFF) = .ok 0x00)
    (k1 : t.halted = false) (k2 : t.haltBugActive = false)
    (k3 : t.eiDelay = 0)
    (k4 : mt.read_byte t.pc = .ok 0xF3)
    (k5 : mt.ie &&& mt.io 0x0F &&& 0x1F = 0) :
    (∃ s1, CPU.step s ms = .ok (s1, ms) ∧
      s1.ime = false ∧ s1.eiDelay = 2 ∧
      (s1.ei_tick).ime = false ∧
      CPU.handle_interrupts s1.ei_tick ms = .ok none ∧
      ∃ s2, CPU.step s1 ms = .ok (s2, ms) ∧
        s2.ime = false ∧ s2.eiDelay = 1 ∧
        (s2.ei_tick).ime = true) ∧
    (∃ t1, CPU.step t mt = .ok (t1, mt) ∧ t1.ime = false) := by
  constructor
  · -- the EI step
    set s1 : CPU := { s with pc := (s.pc + 1) &&& 0xFFFF, eiDelay := 2,
                             cycles := s.cycles + 4 } with hs1def
    have hs1ei : s1.eiDelay = 2 := by rw [hs1def]
    have hs1ime : s1.ime = false := by rw [hs1def]; exact h3
    have hs1h : s1.halted = false := by rw [hs1def]; exact h1
    have hs1b : s1.haltBugActive = false := by rw [hs1def]; exact h2
    have hs1pc : s1.pc = (s.pc + 1) &&& 0xFFFF := by rw [hs1def]
    have htick1 : s1.ei_tick = { s1 with eiDelay := 1 } := ei_tick_two s1 hs1ei
    have hs : CPU.step s ms = .ok (s1, ms) := by
      rw [step_exec s ms 0xFB h1 h2
        (Or.inl (by rw [ei_tick_zero s h4]; exact h3))
        (by rw [ei_tick_zero s h4]; exact h5)]
      rw [ei_tick_zero s h4, hs1def]
      rfl
    refine ⟨s1, hs, hs1ime, hs1ei, ?_, ?_, ?_⟩
    · rw [htick1]; exact hs1ime
    · exact handle_interrupts_none _ ms (Or.inl (by rw [htick1]; exact hs1ime))
    · -- the following (NOP) step
      set s2 : CPU := { s1 with eiDelay := 1, pc := (s1.pc + 1) &&& 0xFFFF,
                                cycles := s1.cycles + 4 } with hs2def
      have hs2ei : s2.eiDelay = 1 := by rw [hs2def]
      have hstep2 : CPU.step s1 ms = .ok (s2, ms) := by
        rw [step_exec s1 ms 0x00 hs1h hs1b
          (Or.inl (by rw [htick1]; exact hs1ime))
          (by
            show ms.read_byte (s1.ei_tick).pc = .ok 0x00
            rw [htick1]
            show ms.read_byte s1.pc = .ok 0x00
            rw [hs1pc]
            exact h6)]
        rw [htick1, hs2def]
        rfl
      refine ⟨s2, hstep2, by rw [hs2def]; exact hs1ime, hs2ei, ?_⟩
      rw [ei_tick_one s2 hs2ei]
  · -- the DI step
    have ht : CPU.step t mt
        = .ok ({ t with pc := (t.pc + 1) &&& 0xFFFF, ime := false,
                        cycles := t.cycles + 4 }, mt) := by
      rw [step_exec t mt 0xF3 k1 k2
        (Or.inr k5)
        (by rw [ei_tick_zero t k3]; exact k4)]
      rw [ei_tick_zero t k3]
      rfl
    exact ⟨_, ht, rfl⟩

/-- Witness for `c8_ei_delayed_di_immediate`: EI; NOP at `0xC000` (EI
scenario) and DI at `0xC000` with no pending interrupts (DI scenario, with
IME initially true). -/
theorem c8_ei_delayed_di_immediate_witness :
    (∃ s1, CPU.step cpu0
        { mem0 with wram := fun i => if i = 0 then 0xFB else 0x00 }
        = .ok (s1, { mem0 with wram := fun i => if i = 0 then 0xFB else 0x00 }) ∧
      s1.ime = false ∧ s1.eiDelay = 2 ∧
      (s1.ei_tick).ime = false ∧
      CPU.handle_interrupts s1.ei_tick
        { mem0 with wram := fun i => if i = 0 then 0xFB else 0x00 } = .ok none ∧
      ∃ s2, CPU.step s1
          { mem0 with wram := fun i => if i = 0 then 0xFB else 0x00 }
          = .ok (s2, { mem0 with wram := fun i => if i = 0 then 0xFB else 0x00 }) ∧
        s2.ime = false ∧ s2.eiDelay = 1 ∧
        (s2.ei_tick).ime = true) ∧
    (∃ t1, CPU.step { cpu0 with ime := true }
        { mem0 with wram := fun i => if i = 0 then 0xF3 else 0x00 }
        = .ok (t1, { mem0 with wram := fun i => if i = 0 then 0xF3 else 0x00 }) ∧
      t1.ime = false) :=
  c8_ei_delayed_di_immediate cpu0 { cpu0 with ime := true }
    { mem0 with wram := fun i => if i = 0 then 0xFB else 0x00 }
    { mem0 with wram := fun i => if i = 0 then 0xF3 else 0x00 }
    rfl rfl rfl rfl rfl rfl rfl rfl rfl rfl (by decide)

/-- One scanline tick of `PPU.step`, for any LCDC value: when the
accumulated cycles reach one scanline (456) but less than two, LY advances
by one (below the 154 wrap), LCDC is neither read nor written, and IF bit 0
is set exactly when the new LY is 144. -/
theorem ppu_step_once (m : Memory) (p n : Nat)
    (hc1 : 456 ≤ p + n) (hc2 : p + n < 912)
    (hly : m.io 0x44 + 1 < 154) :
    ∃ m', PPU.step m p n = .ok (m', p + n - 456) ∧
      m'.io 0x44 = m.io 0x44 + 1 ∧
      m'.io 0x40 = m.io 0x40 ∧
      (m.io 0x44 + 1 = 144 → m'.io 0x0F = (m.io 0x0F ||| 1) &&& 0xFF) ∧
      (m.io 0x44 + 1 ≠ 144 → m'.io 0x0F = m.io 0x0F) := by
  unfold PPU.step
  rw [PPU.step_loop]
  rw [if_pos (by omega)]
  have hmod : (m.io 0x44 + 1) % 154 = m.io 0x44 + 1 := Nat.mod_eq_of_lt hly
  have hmask : (m.io 0x44 + 1) &&& 0xFF = m.io 0x44 + 1 := by
    rw [land_ff]
    exact Nat.mod_eq_of_lt (by omega)
  simp only [read_byte_ff44, write_byte_ff44, read_byte_ff0f, write_byte_ff0f,
    except_ok_bind, except_pure_eq, hmod, hmask]
  by_cases h144 : m.io 0x44 + 1 = 144
  · rw [if_pos h144]
    rw [PPU.step_loop, if_neg (by omega)]
    simp only [except_ok_bind, except_pure_eq]
    refine ⟨_, rfl, ?_, ?_, fun _ => ?_, fun hno => absurd h144 hno⟩
    · simp [setIdx]
    · simp [setIdx]
    · simp [setIdx]
  · rw [if_neg h144, if_neg (by omega)]
    rw [PPU.step_loop, if_neg (by omega)]
    simp only [except_ok_bind, except_pure_eq]
    refine ⟨_, rfl, ?_, ?_, fun hyes => absurd hyes h144, fun _ => ?_⟩
    · simp [setIdx]
    · simp [setIdx]
    · simp [setIdx]

/-- Claim C9 (counterexample).  With the LCD disabled (LCDC = 0x11, bit 7
clear), LY = 0 and an empty cycle accumulator, one `PPU.step` of 456 cycles
leaves LY = 1 — the PPU does not hold LY at 0 while the LCD is off (its
`step` never reads LCDC); and from LY = 143 the same step sets IF bit 0,
i.e. the PPU raises the VBlank interrupt with the LCD disabled. -/
theorem c9_counterexample :
    (∃ m', PPU.step { mem0 with io := setIdx mem0.io 0x40 0x11 } 0 456
        = .ok (m', 0) ∧ m'.io 0x44 = 1 ∧ ¬ m'.io 0x44 = 0) ∧
    (∃ m', PPU.step { mem0 with io := setIdx (setIdx mem0.io 0x40 0x11) 0x44 143 }
        0 456 = .ok (m', 0) ∧ m'.io 0x44 = 144 ∧ m'.io 0x0F &&& 0x01 = 1) := by
  constructor
  · obtain ⟨m', h1, h2, h3, h4, h5⟩ :=
      ppu_step_once { mem0 with io := setIdx mem0.io 0x40 0x11 } 0 456
        (by norm_num) (by norm_num) (by decide)
    refine ⟨m', h1, ?_, ?_⟩
    · rw [h2]; decide
    · rw [h2]; decide
  · obtain ⟨m', h1, h2, h3, h4, h5⟩ :=
      ppu_step_once
        { mem0 with io := setIdx (setIdx mem0.io 0x40 0x11) 0x44 143 } 0 456
        (by norm_num) (by norm_num) (by decide)
    refine ⟨m', h1, ?_, ?_⟩
    · rw [h2]; decide
    · rw [h4 (by decide)]; decide

/-- Claim C9 (amended).  `PPU.step` (the overriding definition at
ppu.py:941) ignores LCDC entirely and never touches the mode field: even
in a state with LCDC bit 7 = 0 (LCD disabled), a step that completes one
456-cycle scanline advances LY by one and, on entering LY = 144, sets IF
bit 0 — LY is not held at 0 and the VBlank interrupt is still generated
while the LCD is off. -/
theorem c9_ppu_ignores_lcdc (m : Memory) (p n : Nat)
    (hlcd : m.io 0x40 &&& 0x80 = 0)
    (hc1 : 456 ≤ p + n) (hc2 : p + n < 912)
    (hly : m.io 0x44 + 1 < 154) :
    ∃ m', PPU.step m p n = .ok (m', p + n - 456) ∧
      m'.io 0x44 = m.io 0x44 + 1 ∧
      m'.io 0x44 ≠ 0 ∧
      m'.io 0x40 &&& 0x80 = 0 ∧
      (m.io 0x44 + 1 = 144 → m'.io 0x0F = (m.io 0x0F ||| 1) &&& 0xFF) ∧
      (m.io 0x44 + 1 ≠ 144 → m'.io 0x0F = m.io 0x0F) := by
  obtain ⟨m', h1, h2, h3, h4, h5⟩ := ppu_step_once m p n hc1 hc2 hly
  refine ⟨m', h1, h2, by omega, by rw [h3]; exact hlcd, h4, h5⟩

/-- Witness for `c9_ppu_ignores_lcdc`: LCDC = 0x11 (LCD off), LY = 143,
456 elapsed cycles; the step enters LY = 144 and requests VBlank. -/
theorem c9_ppu_ignores_lcdc_witness :
    ∃ m', PPU.step
        { mem0 with io := setIdx (setIdx mem0.io 0x40 0x11) 0x44 143 } 0 456
        = .ok (m', 0) ∧
      m'.io 0x44 = 143 + 1 ∧
      m'.io 0x44 ≠ 0 ∧
      m'.io 0x40 &&& 0x80 = 0 ∧
      m'.io 0x0F = 1 := by
  obtain ⟨m', h1, h2, h3, h4, h5, h6⟩ :=
    c9_ppu_ignores_lcdc
      { mem0 with io := setIdx (setIdx mem0.io 0x40 0x11) 0x44 143 } 0 456
      (by decide) (by norm_num) (by norm_num) (by decide)
  refine ⟨m', h1, by rw [h2]; decide, h3, h4, ?_⟩
  rw [h5 (by decide)]
  decide

theorem land_ff_ff (x : Nat) : (x &&& 0xFF) &&& 0xFF = x &&& 0xFF := by
  rw [Nat.and_assoc]
  simp

/-- 16-bit pre-decrement of SP: for `1 ≤ sp < 0x10000`,
`(sp + 0xFFFF) &&& 0xFFFF = sp - 1`. -/
theorem sp_dec (sp : Nat) (h1 : 1 ≤ sp) (h2 : sp < 0x10000) :
    (sp + 0xFFFF) &&& 0xFFFF = sp - 1 := by
  rw [land_ffff]
  omega

/-- `Memory.write_byte` into HRAM (0xFF80-0xFFFE) stores the masked byte at
its HRAM offset and touches nothing else. -/
theorem write_byte_hram (m : Memory) (a v : Nat)
    (h1 : 0xFF80 ≤ a) (h2 : a < 0xFFFF) :
    m.write_byte a v
      = .ok { m with hram := setIdx m.hram (a - 0xFF80) (v &&& 0xFF) } := by
  interval_cases a <;> rfl

/-- `CPU.push_byte` when SP points into HRAM: SP is pre-decremented and the
masked byte stored at the HRAM offset of the new SP. -/
theorem push_byte_hram (c : CPU) (m : Memory) (v : Nat)
    (h1 : 0xFF81 ≤ c.sp) (h2 : c.sp ≤ 0xFFFE) :
    CPU.push_byte c m v
      = .ok ({ c with sp := c.sp - 1 },
             { m with hram := setIdx m.hram (c.sp - 1 - 0xFF80)
                        (v &&& 0xFF) }) := by
  unfold CPU.push_byte
  rw [sp_dec c.sp (by omega) (by omega)]
  rw [write_byte_hram _ (c.sp - 1) _ (by omega) (by omega)]
  rw [land_ff_ff]
  rfl

/-- `CPU.push_word` when SP points into HRAM: high byte at SP-1, low byte
at SP-2. -/
theorem push_word_hram (c : CPU) (m : Memory) (v : Nat)
    (h1 : 0xFF82 ≤ c.sp) (h2 : c.sp ≤ 0xFFFE) :
    CPU.push_word c m v
      = .ok ({ c with sp := c.sp - 2 },
             { m with hram := setIdx (setIdx m.hram (c.sp - 1 - 0xFF80)
                                 ((v >>> 8) &&& 0xFF))
                               (c.sp - 2 - 0xFF80) (v &&& 0xFF) }) := by
  unfold CPU.push_word
  rw [push_byte_hram c m _ (by omega) (by omega), except_ok_bind]
  rw [push_byte_hram _ _ _ (show 0xFF81 ≤ c.sp - 1 by omega)
    (show c.sp - 1 ≤ 0xFFFE by omega)]
  have hsub : c.sp - 1 - 1 = c.sp - 2 := by omega
  rw [hsub]
  simp only [land_ff_ff]

/-- `CPU._service_interrupt` in full: IME off, the IF bit cleared (through
the MMU's plain-io path), the 16-bit PC pushed into HRAM at SP-1/SP-2, PC
redirected to the vector, and exactly 20 T-cycles charged. -/
theorem service_interrupt_spec (c : CPU) (m : Memory) (vector flagBit : Nat)
    (hsp1 : 0xFF82 ≤ c.sp) (hsp2 : c.sp ≤ 0xFFFE) :
    CPU.service_interrupt c m vector flagBit
      = .ok ({ c with ime := false, sp := c.sp - 2, pc := vector,
                      cycles := c.cycles + 20 },
             { m with
               io := setIdx m.io 0x0F (pyAndNot (m.io 0x0F) flagBit &&& 0xFF),
               hram := setIdx (setIdx m.hram (c.sp - 1 - 0xFF80)
                          ((c.pc >>> 8) &&& 0xFF))
                        (c.sp - 2 - 0xFF80) (c.pc &&& 0xFF) }) := by
  unfold CPU.service_interrupt
  rw [read_byte_ff0f, except_ok_bind, write_byte_ff0f, except_ok_bind]
  rw [push_word_hram { c with ime := false }
    { m with io := setIdx m.io 0x0F (pyAndNot (m.io 0x0F) flagBit &&& 0xFF) }
    c.pc hsp1 hsp2, except_ok_bind]
  rfl

theorem except_map_ok {ε α β : Type} (f : α → β) (a : α) :
    (f <$> (Except.ok a : Except ε α)) = .ok (f a) := rfl

theorem testBit_false_of_and_pow (p i : Nat) (h : p &&& 2 ^ i = 0) :
    p.testBit i = false := by
  have hp := Nat.and_two_pow p i
  rw [h] at hp
  rcases Bool.eq_false_or_eq_true (p.testBit i) with hb | hb
  · rw [hb] at hp
    have h2 : 0 < 2 ^ i := Nat.two_pow_pos i
    simp only [Bool.toNat_true, one_mul] at hp
    omega
  · exact hb

theorem testBit_true_of_and_pow (p i : Nat) (h : p &&& 2 ^ i ≠ 0) :
    p.testBit i = true := by
  rcases Bool.eq_false_or_eq_true (p.testBit i) with hb | hb
  · exact hb
  · have hp := Nat.and_two_pow p i
    rw [hb] at hp
    simp only [Bool.toNat_false, zero_mul] at hp
    exact absurd hp h

/-- If none of bits 0..4 of `p` is set, then `p &&& 0x1F = 0`. -/
theorem and31_eq_zero (p : Nat)
    (h0 : p &&& 1 = 0) (h1 : p &&& 2 = 0) (h2 : p &&& 4 = 0)
    (h3 : p &&& 8 = 0) (h4 : p &&& 16 = 0) : p &&& 31 = 0 := by
  apply Nat.eq_of_testBit_eq
  intro i
  rw [Nat.testBit_and, Nat.zero_testBit]
  by_cases hi : i < 5
  · interval_cases i
    · simp [testBit_false_of_and_pow p 0 (by simpa using h0)]
    · simp [testBit_false_of_and_pow p 1 (by simpa using h1)]
    · simp [testBit_false_of_and_pow p 2 (by simpa using h2)]
    · simp [testBit_false_of_and_pow p 3 (by simpa using h3)]
    · simp [testBit_false_of_and_pow p 4 (by simpa using h4)]
  · rw [show (31 : Nat) = 2 ^ 5 - 1 by norm_num, Nat.testBit_two_pow_sub_one]
    simp [hi]

/-- Clearing bit `b` of `x` (and masking to a byte) clears exactly bit `b`
among bits 0..7. -/
theorem if_clear_bits (x b k : Nat) (hk : k < 8) :
    ((pyAndNot x (1 <<< b)) &&& 0xFF).testBit k
      = (x.testBit k && decide (k ≠ b)) := by
  rw [Nat.one_shiftLeft]
  rw [show (0xFF : Nat) = 2 ^ 8 - 1 by norm_num]
  rw [Nat.testBit_and, pyAndNot_testBit, Nat.testBit_two_pow_sub_one]
  by_cases hbk : b = k
  · simp [hbk, Nat.testBit_two_pow_self]
  · simp [Nat.testBit_two_pow_of_ne hbk, hk, Ne.symm hbk]

/-- Claim C7 (confirmed).  With IME on, the CPU not halted (and no EI tick
pending), SP in HRAM and some bit of `IE & IF & 0x1F` pending, `CPU.step`
services the lowest-set pending bit `b` before fetching anything: IME is
cleared, exactly that one IF bit is cleared (bits 0..7 characterised below),
the 16-bit PC is pushed onto the stack (high byte at SP-1, low at SP-2), PC
becomes `0x40 + b*8`, and exactly 20 T-cycles are charged. -/
theorem c7_lowest_pending_serviced (c : CPU) (m : Memory)
    (hh : c.halted = false) (hei : c.eiDelay = 0) (hime : c.ime = true)
    (hsp1 : 0xFF82 ≤ c.sp) (hsp2 : c.sp ≤ 0xFFFE)
    (hpend : m.ie &&& m.io 0x0F &&& 0x1F ≠ 0) :
    ∃ b, b < 5 ∧
      (m.ie &&& m.io 0x0F).testBit b = true ∧
      (∀ k, k < b → (m.ie &&& m.io 0x0F).testBit k = false) ∧
      CPU.step c m
        = .ok ({ c with ime := false, sp := c.sp - 2, pc := 0x40 + b * 8,
                        cycles := c.cycles + 20 },
               { m with io := setIdx m.io 0x0F
                          (pyAndNot (m.io 0x0F) (1 <<< b) &&& 0xFF),
                        hram := setIdx (setIdx m.hram (c.sp - 1 - 0xFF80)
                                   ((c.pc >>> 8) &&& 0xFF))
                                 (c.sp - 2 - 0xFF80) (c.pc &&& 0xFF) }) ∧
      (∀ k, k < 8 →
        ((setIdx m.io 0x0F (pyAndNot (m.io 0x0F) (1 <<< b) &&& 0xFF))
            0x0F).testBit k
          = ((m.io 0x0F).testBit k && decide (k ≠ b))) := by
  have hstep : ∀ r, CPU.handle_interrupts c m = .ok (some r) →
      CPU.step c m = .ok r := by
    intro r hr
    unfold CPU.step
    rw [ei_tick_zero c hei]
    simp only [hh, Bool.false_eq_true, if_false, ite_false]
    rw [hr, except_ok_bind]
    rfl
  set p := m.ie &&& m.io 0x0F with hpdef
  have hclear : ∀ b k, k < 8 →
      ((setIdx m.io 0x0F (pyAndNot (m.io 0x0F) (1 <<< b) &&& 0xFF))
          0x0F).testBit k
        = ((m.io 0x0F).testBit k && decide (k ≠ b)) := by
    intro b k hk
    rw [show (setIdx m.io 0x0F (pyAndNot (m.io 0x0F) (1 <<< b) &&& 0xFF))
        0x0F = pyAndNot (m.io 0x0F) (1 <<< b) &&& 0xFF from by simp [setIdx]]
    exact if_clear_bits (m.io 0x0F) b k hk
  by_cases b0 : p &&& 0x01 = 0
  · by_cases b1 : p &&& 0x02 = 0
    · by_cases b2 : p &&& 0x04 = 0
      · by_cases b3 : p &&& 0x08 = 0
        · by_cases b4 : p &&& 0x10 = 0
          · exact absurd (and31_eq_zero p b0 b1 b2 b3 b4) hpend
          · -- bit 4 (joypad)
            refine ⟨4, by norm_num,
              testBit_true_of_and_pow p 4 (by simpa using b4),
              ?_, ?_, hclear 4⟩
            · intro k hk
              interval_cases k
              · exact testBit_false_of_and_pow p 0 (by simpa using b0)
              · exact testBit_false_of_and_pow p 1 (by simpa using b1)
              · exact testBit_false_of_and_pow p 2 (by simpa using b2)
              · exact testBit_false_of_and_pow p 3 (by simpa using b3)
            · apply hstep
              unfold CPU.handle_interrupts
              simp only [hime, not_true, Bool.true_eq_false, if_false,
                ite_false, read_byte_ie, read_byte_ff0f, except_ok_bind,
                ← hpdef]
              rw [if_neg (by simp [b0]), if_neg (by simp [b1]),
                  if_neg (by simp [b2]), if_neg (by simp [b3]),
                  if_pos b4]
              rw [service_interrupt_spec c m 0x60 0x10 hsp1 hsp2,
                except_map_ok]
              rfl
        · -- bit 3 (serial)
          refine ⟨3, by norm_num,
            testBit_true_of_and_pow p 3 (by simpa using b3),
            ?_, ?_, hclear 3⟩
          · intro k hk
            interval_cases k
            · exact testBit_false_of_and_pow p 0 (by simpa using b0)
            · exact testBit_false_of_and_pow p 1 (by simpa using b1)
            · exact testBit_false_of_and_pow p 2 (by simpa using b2)
          · apply hstep
            unfold CPU.handle_interrupts
            simp only [hime, not_true, Bool.true_eq_false, if_false,
              ite_false, read_byte_ie, read_byte_ff0f, except_ok_bind,
              ← hpdef]
            rw [if_neg (by simp [b0]), if_neg (by simp [b1]),
                if_neg (by simp [b2]), if_pos b3]
            rw [service_interrupt_spec c m 0x58 0x08 hsp1 hsp2,
              except_map_ok]
            rfl
      · -- bit 2 (timer)
        refine ⟨2, by norm_num,
          testBit_true_of_and_pow p 2 (by simpa using b2),
          ?_, ?_, hclear 2⟩
        · intro k hk
          interval_cases k
          · exact testBit_false_of_and_pow p 0 (by simpa using b0)
          · exact testBit_false_of_and_pow p 1 (by simpa using b1)
        · apply hstep
          unfold CPU.handle_interrupts
          simp only [hime, not_true, Bool.true_eq_false, if_false,
            ite_false, read_byte_ie, read_byte_ff0f, except_ok_bind,
            ← hpdef]
          rw [if_neg (by simp [b0]), if_neg (by simp [b1]), if_pos b2]
          rw [service_interrupt_spec c m 0x50 0x04 hsp1 hsp2,
            except_map_ok]
          rfl
    · -- bit 1 (LCDC STAT)
      refine ⟨1, by norm_num,
        testBit_true_of_and_pow p 1 (by simpa using b1),
        ?_, ?_, hclear 1⟩
      · intro k hk
        interval_cases k
        · exact testBit_false_of_and_pow p 0 (by simpa using b0)
      · apply hstep
        unfold CPU.handle_interrupts
        simp only [hime, not_true, Bool.true_eq_false, if_false,
          ite_false, read_byte_ie, read_byte_ff0f, except_ok_bind,
          ← hpdef]
        rw [if_neg (by simp [b0]), if_pos b1]
        rw [service_interrupt_spec c m 0x48 0x02 hsp1 hsp2,
          except_map_ok]
        rfl
  · -- bit 0 (V-Blank)
    refine ⟨0, by norm_num,
      testBit_true_of_and_pow p 0 (by simpa using b0),
      fun k hk => absurd hk (by omega), ?_, hclear 0⟩
    apply hstep
    unfold CPU.handle_interrupts
    simp only [hime, not_true, Bool.true_eq_false, if_false,
      ite_false, read_byte_ie, read_byte_ff0f, except_ok_bind,
      ← hpdef]
    rw [if_pos b0]
    rw [service_interrupt_spec c m 0x40 0x01 hsp1 hsp2,
      except_map_ok]
    rfl

/-- Witness for `c7_lowest_pending_serviced`: IME on, PC = 0x1234,
SP = 0xFFFE, IE = 0x14, IF = 0x1C — pending = 0x14, lowest bit 2 (timer),
vector 0x50. -/
theorem c7_lowest_pending_serviced_witness :
    ({ cpu0 with ime := true, pc := 0x1234 } : CPU).halted = false ∧
    ({ cpu0 with ime := true, pc := 0x1234 } : CPU).eiDelay = 0 ∧
    ({ cpu0 with ime := true, pc := 0x1234 } : CPU).ime = true ∧
    0xFF82 ≤ ({ cpu0 with ime := true, pc := 0x1234 } : CPU).sp ∧
    ({ cpu0 with ime := true, pc := 0x1234 } : CPU).sp ≤ 0xFFFE ∧
    ({ mem0 with ie := 0x14, io := setIdx mem0.io 0x0F 0x1C } : Memory).ie &&& ({ mem0 with ie := 0x14, io := setIdx mem0.io 0x0F 0x1C } : Memory).io 0x0F &&& 0x1F ≠ 0 ∧
    (∃ b, b < 5 ∧
      (({ mem0 with ie := 0x14, io := setIdx mem0.io 0x0F 0x1C } : Memory).ie &&& ({ mem0 with ie := 0x14, io := setIdx mem0.io 0x0F 0x1C } : Memory).io 0x0F).testBit b = true ∧
      (∀ k, k < b → (({ mem0 with ie := 0x14, io := setIdx mem0.io 0x0F 0x1C } : Memory).ie &&& ({ mem0 with ie := 0x14, io := setIdx mem0.io 0x0F 0x1C } : Memory).io 0x0F).testBit k = false) ∧
      CPU.step { cpu0 with ime := true, pc := 0x1234 } { mem0 with ie := 0x14, io := setIdx mem0.io 0x0F 0x1C }
        = .ok ({ ({ cpu0 with ime := true, pc := 0x1234 } : CPU) with ime := false, sp := ({ cpu0 with ime := true, pc := 0x1234 } : CPU).sp - 2, pc := 0x40 + b * 8, cycles := ({ cpu0 with ime := true, pc := 0x1234 } : CPU).cycles + 20 },
               { ({ mem0 with ie := 0x14, io := setIdx mem0.io 0x0F 0x1C } : Memory) with io := setIdx ({ mem0 with ie := 0x14, io := setIdx mem0.io 0x0F 0x1C } : Memory).io 0x0F (pyAndNot (({ mem0 with ie := 0x14, io := setIdx mem0.io 0x0F 0x1C } : Memory).io 0x0F) (1 <<< b) &&& 0xFF), hram := setIdx (setIdx ({ mem0 with ie := 0x14, io := setIdx mem0.io 0x0F 0x1C } : Memory).hram (({ cpu0 with ime := true, pc := 0x1234 } : CPU).sp - 1 - 0xFF80) ((({ cpu0 with ime := true, pc := 0x1234 } : CPU).pc >>> 8) &&& 0xFF)) (({ cpu0 with ime := true, pc := 0x1234 } : CPU).sp - 2 - 0xFF80) (({ cpu0 with ime := true, pc := 0x1234 } : CPU).pc &&& 0xFF) }) ∧
      (∀ k, k < 8 →
        ((setIdx ({ mem0 with ie := 0x14, io := setIdx mem0.io 0x0F 0x1C } : Memory).io 0x0F (pyAndNot (({ mem0 with ie := 0x14, io := setIdx mem0.io 0x0F 0x1C } : Memory).io 0x0F) (1 <<< b) &&& 0xFF)) 0x0F).testBit k
          = ((({ mem0 with ie := 0x14, io := setIdx mem0.io 0x0F 0x1C } : Memory).io 0x0F).testBit k && decide (k ≠ b)))) :=
  ⟨rfl, rfl, rfl, by decide, by decide, by decide,
    c7_lowest_pending_serviced { cpu0 with ime := true, pc := 0x1234 }
      { mem0 with ie := 0x14, io := setIdx mem0.io 0x0F 0x1C }
      rfl rfl rfl (by decide) (by decide) (by decide)⟩
